import Mathlib

/-!
# The Wahwah effect (`src/effects/Wahwah.cpp`)

A shallow embedding of the DSP core of `EffectWahwah`: the per-stream state
`EffectWahwahState`, `InstanceInit`, `InstanceProcess`, and the master/slave
bookkeeping (`ProcessInitialize`, `ProcessBlock`, `RealtimeInitialize`,
`RealtimeAddProcessor`, `RealtimeFinalize`, `RealtimeProcess`).

Arithmetic is exact: a C++ `double`/`float` variable holds either a number of
a field `K` or the single value `Dbl.nan`, which stands for every non-finite
result (NaN, +Inf, -Inf).  A division by zero gives `Dbl.nan`, and `Dbl.nan`
is absorbing for every operation, as NaN is.  Rounding is not modelled, so the
conversions `(double) ibuf[i]` and `(float) out` are the identity.
-/

namespace Wahwah

/-- Value of a floating-point variable in exact arithmetic: a number of `K`,
or `nan` for a non-finite result. -/
inductive Dbl (K : Type) where
  | fin : K → Dbl K
  | nan : Dbl K
deriving DecidableEq, Repr

namespace Dbl

variable {K : Type}

/-- Addition of two floating-point values. -/
def add [Add K] : Dbl K → Dbl K → Dbl K
  | fin a, fin b => fin (a + b)
  | _, _ => nan

/-- Subtraction of two floating-point values. -/
def sub [Sub K] : Dbl K → Dbl K → Dbl K
  | fin a, fin b => fin (a - b)
  | _, _ => nan

/-- Multiplication of two floating-point values. -/
def mul [Mul K] : Dbl K → Dbl K → Dbl K
  | fin a, fin b => fin (a * b)
  | _, _ => nan

/-- Division of two floating-point values; a zero divisor gives a non-finite
result. -/
def div [Div K] [Zero K] [DecidableEq K] : Dbl K → Dbl K → Dbl K
  | fin a, fin b => if b = 0 then nan else fin (a / b)
  | _, _ => nan

/-- Application of a function of the math library (`cos`, `sin`, `exp`). -/
def map (f : K → K) : Dbl K → Dbl K
  | fin a => fin (f a)
  | nan => nan

instance [Add K] : Add (Dbl K) := ⟨add⟩
instance [Sub K] : Sub (Dbl K) := ⟨sub⟩
instance [Mul K] : Mul (Dbl K) := ⟨mul⟩
instance [Div K] [Zero K] [DecidableEq K] : Div (Dbl K) := ⟨div⟩

end Dbl

open Dbl (fin nan)

/-- What the C++ platform supplies and the sources do not define: the constant
`M_PI`, the functions `cos`, `sin`, `exp` of `<math.h>`, and the macro
`DB_TO_LINEAR` (the dB-to-linear mapping), whose definition is in a header
outside `Wahwah.cpp`. -/
structure Platform (K : Type) where
  M_PI : K
  cos : K → K
  sin : K → K
  exp : K → K
  DB_TO_LINEAR : K → K

/-- The parameter record `mSettings`.  `mDepth` and `mFreqOfs` are `int`
(they are edited through `IntegerValidator<int>`), the others are `double`. -/
structure EffectWahwahSettings (K : Type) where
  mFreq : K
  mPhase : K
  mDepth : Int
  mRes : K
  mFreqOfs : Int
  mOutGain : K

/-- The per-stream filter state.  `skipcount` is an integer counter; its
declaration is in `Wahwah.h`, and it is taken here as an unbounded natural
number. -/
structure EffectWahwahState (K : Type) where
  samplerate : Dbl K
  depth : Dbl K
  freqofs : Dbl K
  phase : Dbl K
  outgain : Dbl K
  lfoskip : Dbl K
  skipcount : Nat
  xn1 : Dbl K
  xn2 : Dbl K
  yn1 : Dbl K
  yn2 : Dbl K
  b0 : Dbl K
  b1 : Dbl K
  b2 : Dbl K
  a0 : Dbl K
  a1 : Dbl K
  a2 : Dbl K

/-- Number of samples processed before the lfo value is recomputed
(`#define lfoskipsamples 30`). -/
def lfoskipsamples : Nat := 30

section Instance

variable {K : Type} [Field K] [DecidableEq K]

/-- Embedding of `EffectWahwah::InstanceInit(data, sampleRate)`, lines 282-304: every field
of `data` is assigned. -/
def InstanceInit (P : Platform K) (ms : EffectWahwahSettings K)
    (data : EffectWahwahState K) (sampleRate : K) : EffectWahwahState K :=
  { data with
    samplerate := fin sampleRate
    lfoskip := fin ms.mFreq * fin 2 * fin P.M_PI / fin sampleRate
    skipcount := 0
    xn1 := fin 0
    xn2 := fin 0
    yn1 := fin 0
    yn2 := fin 0
    b0 := fin 0
    b1 := fin 0
    b2 := fin 0
    a0 := fin 0
    a1 := fin 0
    a2 := fin 0
    depth := fin (ms.mDepth : K) / fin 100
    freqofs := fin (ms.mFreqOfs : K) / fin 100
    phase := fin ms.mPhase * fin P.M_PI / fin 180
    outgain := fin (P.DB_TO_LINEAR ms.mOutGain) }

/-- Lines 317-322 of `InstanceProcess`: the five derived fields are assigned
from the parameter record and from the state's own `samplerate`. -/
def deriveFields (P : Platform K) (ms : EffectWahwahSettings K)
    (data : EffectWahwahState K) : EffectWahwahState K :=
  { data with
    lfoskip := fin ms.mFreq * fin 2 * fin P.M_PI / data.samplerate
    depth := fin (ms.mDepth : K) / fin 100
    freqofs := fin (ms.mFreqOfs : K) / fin 100
    phase := fin ms.mPhase * fin P.M_PI / fin 180
    outgain := fin (P.DB_TO_LINEAR ms.mOutGain) }

/-- Lines 330-342 of `InstanceProcess`: the body of the `if`, run on a state
whose `skipcount` has already been incremented. -/
def recompute (P : Platform K) (ms : EffectWahwahSettings K)
    (data : EffectWahwahState K) : EffectWahwahState K :=
  let frequency :=
    (fin 1 + Dbl.map P.cos (fin (data.skipcount : K) * data.lfoskip + data.phase)) / fin 2
  let frequency := frequency * data.depth * (fin 1 - data.freqofs) + data.freqofs
  let frequency := Dbl.map P.exp ((frequency - fin 1) * fin 6)
  let omega := fin P.M_PI * frequency
  let sn := Dbl.map P.sin omega
  let cs := Dbl.map P.cos omega
  let alpha := sn / (fin 2 * fin ms.mRes)
  { data with
    b0 := (fin 1 - cs) / fin 2
    b1 := fin 1 - cs
    b2 := (fin 1 - cs) / fin 2
    a0 := fin 1 + alpha
    a1 := fin (-2) * cs
    a2 := fin 1 - alpha }

/-- Lines 326-351 of `InstanceProcess`: one pass of the loop body on the input
sample `x`; the result is the new state and the sample written to `obuf`. -/
def processSample (P : Platform K) (ms : EffectWahwahSettings K)
    (data : EffectWahwahState K) (x : Dbl K) : EffectWahwahState K × Dbl K :=
  let test := data.skipcount % lfoskipsamples = 0
  let data := { data with skipcount := data.skipcount + 1 }
  let data := if test then recompute P ms data else data
  let out := (data.b0 * x + data.b1 * data.xn1 + data.b2 * data.xn2
    - data.a1 * data.yn1 - data.a2 * data.yn2) / data.a0
  let data := { data with xn2 := data.xn1, xn1 := x, yn2 := data.yn1, yn1 := out }
  (data, out * data.outgain)

/-- The `for` loop of `InstanceProcess` (lines 324-352) over the input
buffer. -/
def processLoop (P : Platform K) (ms : EffectWahwahSettings K) :
    EffectWahwahState K → List (Dbl K) → EffectWahwahState K × List (Dbl K)
  | data, [] => (data, [])
  | data, x :: xs =>
    let r := processSample P ms data x
    let rest := processLoop P ms r.1 xs
    (rest.1, r.2 :: rest.2)

/-- Embedding of `EffectWahwah::InstanceProcess`, lines 306-355.  The input buffer
`inBlock[0]` of `blockLen` samples is a list; the result is the new state,
the output buffer `outBlock[0]` and the returned count `blockLen`. -/
def InstanceProcess (P : Platform K) (ms : EffectWahwahSettings K)
    (data : EffectWahwahState K) (inBlock : List (Dbl K)) :
    EffectWahwahState K × List (Dbl K) × Nat :=
  let r := processLoop P ms (deriveFields P ms data) inBlock
  (r.1, r.2, inBlock.length)

/-- The six filter coefficients of a state, in the order
`b0, b1, b2, a0, a1, a2`. -/
def coefficients (data : EffectWahwahState K) :
    Dbl K × Dbl K × Dbl K × Dbl K × Dbl K × Dbl K :=
  (data.b0, data.b1, data.b2, data.a0, data.a1, data.a2)

/-- The filter memory of a state, in the order `xn1, xn2, yn1, yn2`. -/
def memory (data : EffectWahwahState K) : Dbl K × Dbl K × Dbl K × Dbl K :=
  (data.xn1, data.xn2, data.yn1, data.yn2)

end Instance

/-- The channel names of the host (`ChannelName`, declared outside the
sources); `ProcessInitialize` only compares with `ChannelNameFrontRight`. -/
inductive ChannelName where
  | ChannelNameEOL
  | ChannelNameMono
  | ChannelNameFrontLeft
  | ChannelNameFrontRight
  | ChannelNameFrontCenter
deriving DecidableEq, Repr

/-- The members of `EffectWahwah` that the DSP core uses: the parameter
record, the master state, the vector of slave states, the sample rate
`mSampleRate` of the base class, and the block size set by
`SetBlockSize`. -/
structure EffectWahwah (K : Type) where
  mSettings : EffectWahwahSettings K
  mMaster : EffectWahwahState K
  mSlaves : List (EffectWahwahState K)
  mSampleRate : K
  mBlockSize : Nat

/-- How an access to a `std::vector` can go wrong: `operator[]` on an index
that is not below `size()` has undefined behaviour; `outOfRange` is the
condition a checked access would report. -/
inductive VectorFault where
  | undefinedBehaviour
  | outOfRange
deriving DecidableEq, Repr

/-- The unchecked access `v[i]` of `std::vector` with an `int` index: the
index is converted to `size_t`, so a negative one is not below `size()`. -/
def vectorIndex {α : Type} (v : List α) (i : Int) : Except VectorFault α :=
  if i < 0 then .error .undefinedBehaviour
  else
    match v[i.toNat]? with
    | some x => .ok x
    | none => .error .undefinedBehaviour

section Effect

variable {K : Type} [Field K] [DecidableEq K]

/-- Embedding of `EffectWahwah::ProcessInitialize`, lines 128-139; `chanMap0` is
`chanMap[0]`. -/
def ProcessInitialize (P : Platform K) (e : EffectWahwah K) (chanMap0 : ChannelName) :
    Bool × EffectWahwah K :=
  let mMaster := InstanceInit P e.mSettings e.mMaster e.mSampleRate
  let mMaster :=
    if chanMap0 = ChannelName.ChannelNameFrontRight then
      { mMaster with phase := mMaster.phase + fin P.M_PI }
    else mMaster
  (true, { e with mMaster := mMaster })

/-- Embedding of `EffectWahwah::ProcessBlock`, lines 141-145. -/
def ProcessBlock (P : Platform K) (e : EffectWahwah K) (inBlock : List (Dbl K)) :
    EffectWahwah K × List (Dbl K) × Nat :=
  let r := InstanceProcess P e.mSettings e.mMaster inBlock
  ({ e with mMaster := r.1 }, r.2)

/-- Embedding of `EffectWahwah::RealtimeInitialize`, lines 147-154. -/
def RealtimeInitialize (e : EffectWahwah K) : Bool × EffectWahwah K :=
  (true, { e with mBlockSize := 512, mSlaves := [] })

/-- Embedding of `EffectWahwah::RealtimeAddProcessor`, lines 156-166; `slave` is the
content of the local variable before `InstanceInit` assigns it. -/
def RealtimeAddProcessor (P : Platform K) (e : EffectWahwah K)
    (slave : EffectWahwahState K) (sampleRate : K) : Bool × EffectWahwah K :=
  let slave := InstanceInit P e.mSettings slave sampleRate
  (true, { e with mSlaves := e.mSlaves ++ [slave] })

/-- Embedding of `EffectWahwah::RealtimeFinalize`, lines 168-173. -/
def RealtimeFinalize (e : EffectWahwah K) : Bool × EffectWahwah K :=
  (true, { e with mSlaves := [] })

/-- Embedding of `EffectWahwah::RealtimeProcess`, lines 175-179: `InstanceProcess` on
`mSlaves[group]`, reached through the unchecked `operator[]`. -/
def RealtimeProcess (P : Platform K) (e : EffectWahwah K) (group : Int)
    (inbuf : List (Dbl K)) :
    Except VectorFault (EffectWahwah K × List (Dbl K) × Nat) :=
  match vectorIndex e.mSlaves group with
  | .error f => .error f
  | .ok slave =>
    let r := InstanceProcess P e.mSettings slave inbuf
    .ok ({ e with mSlaves := e.mSlaves.set group.toNat r.1 }, r.2)

end Effect

/-- The properties of the real `pi`, `cos`, `sin` and `exp` that the filter
relies on: `cos` stays in `[-1, 1]`, `exp` is non-negative and at most 1 on
non-positive arguments, and `sin` is non-negative on `[0, pi]`. -/
structure Platform.Sound {K : Type} [LinearOrderedField K] (P : Platform K) : Prop where
  pi_nonneg : 0 ≤ P.M_PI
  neg_one_le_cos : ∀ x, -1 ≤ P.cos x
  cos_le_one : ∀ x, P.cos x ≤ 1
  exp_nonneg : ∀ x, 0 ≤ P.exp x
  exp_le_one : ∀ x, x ≤ 0 → P.exp x ≤ 1
  sin_nonneg : ∀ x, 0 ≤ x → x ≤ P.M_PI → 0 ≤ P.sin x

/-- A state is quiet when its filter memory is zero and its coefficients, once
computed (`skipcount` is no longer 0), are finite with `a0` at least 1. -/
def Quiet {K : Type} [LinearOrderedField K] (s : EffectWahwahState K) : Prop :=
  s.xn1 = fin 0 ∧ s.xn2 = fin 0 ∧ s.yn1 = fin 0 ∧ s.yn2 = fin 0 ∧
    (s.skipcount = 0 ∨ ∃ b0 b1 b2 a0 a1 a2 : K,
      coefficients s = (fin b0, fin b1, fin b2, fin a0, fin a1, fin a2) ∧ 1 ≤ a0)

/-- Exact value of the local variable `frequency` after line 331 of
`InstanceProcess`, at a recompute whose incremented `skipcount` is `n`, when
the derived fields were set from `ms` and the sample rate `sr`. -/
def sweepFrequency {K : Type} [Field K] (P : Platform K) (ms : EffectWahwahSettings K)
    (sr : K) (n : Nat) : K :=
  (1 + P.cos ((n : K) * (ms.mFreq * 2 * P.M_PI / sr) + ms.mPhase * P.M_PI / 180)) / 2 *
    ((ms.mDepth : K) / 100) * (1 - (ms.mFreqOfs : K) / 100) + (ms.mFreqOfs : K) / 100

/-- Exact value of the local variable `omega` (line 333) at the same
recompute: `M_PI * exp((frequency - 1) * 6)`. -/
def sweepOmega {K : Type} [Field K] (P : Platform K) (ms : EffectWahwahSettings K)
    (sr : K) (n : Nat) : K :=
  P.M_PI * P.exp ((sweepFrequency P ms sr n - 1) * 6)

/-- The coefficients of a state are finite and its `a0` is at least 1. -/
def Guarded {K : Type} [LinearOrderedField K] (s : EffectWahwahState K) : Prop :=
  ∃ b0 b1 b2 a0 a1 a2 : K,
    coefficients s = (fin b0, fin b1, fin b2, fin a0, fin a1, fin a2) ∧ 1 ≤ a0

/-! ## Concrete inputs -/

/-- A computable platform over the rationals (truncated series for the math
functions), for running the model on concrete inputs. -/
def ratPlatform : Platform ℚ where
  M_PI := 355 / 113
  cos := fun x => 1 - x ^ 2 / 2
  sin := fun x => x - x ^ 3 / 6
  exp := fun x => 1 + x + x ^ 2 / 2
  DB_TO_LINEAR := fun x => 1 + x / 20

/-- A parameter record: LFO frequency 1.5 Hz, start phase 0, depth 70 %,
resonance 2.5, frequency offset 30 %, output gain -6 dB. -/
def sampleSettings {K : Type} [Field K] : EffectWahwahSettings K where
  mFreq := 3 / 2
  mPhase := 0
  mDepth := 70
  mRes := 5 / 2
  mFreqOfs := 30
  mOutGain := -6

/-- A state whose seventeen fields are all zero. -/
def zeroState {K : Type} [Field K] : EffectWahwahState K where
  samplerate := fin 0
  depth := fin 0
  freqofs := fin 0
  phase := fin 0
  outgain := fin 0
  lfoskip := fin 0
  skipcount := 0
  xn1 := fin 0
  xn2 := fin 0
  yn1 := fin 0
  yn2 := fin 0
  b0 := fin 0
  b1 := fin 0
  b2 := fin 0
  a0 := fin 0
  a1 := fin 0
  a2 := fin 0

/-- An effect object with no slave, at 44100 Hz. -/
def idleEffect : EffectWahwah ℚ where
  mSettings := sampleSettings
  mMaster := zeroState
  mSlaves := []
  mSampleRate := 44100
  mBlockSize := 0

/-- An effect object with two slaves. -/
def stereoEffect : EffectWahwah ℚ :=
  (RealtimeAddProcessor ratPlatform
    (RealtimeAddProcessor ratPlatform idleEffect zeroState 44100).2 zeroState 44100).2

/-! ## Basic facts about the arithmetic -/

namespace Dbl

variable {K : Type}

@[simp] theorem fin_add_fin [Add K] (a b : K) : (fin a + fin b : Dbl K) = fin (a + b) := rfl
@[simp] theorem fin_sub_fin [Sub K] (a b : K) : (fin a - fin b : Dbl K) = fin (a - b) := rfl
@[simp] theorem fin_mul_fin [Mul K] (a b : K) : (fin a * fin b : Dbl K) = fin (a * b) := rfl
@[simp] theorem nan_add [Add K] (x : Dbl K) : nan + x = nan := by cases x <;> rfl
@[simp] theorem add_nan [Add K] (x : Dbl K) : x + nan = nan := by cases x <;> rfl
@[simp] theorem nan_sub [Sub K] (x : Dbl K) : nan - x = nan := by cases x <;> rfl
@[simp] theorem sub_nan [Sub K] (x : Dbl K) : x - nan = nan := by cases x <;> rfl
@[simp] theorem nan_mul [Mul K] (x : Dbl K) : nan * x = nan := by cases x <;> rfl
@[simp] theorem mul_nan [Mul K] (x : Dbl K) : x * nan = nan := by cases x <;> rfl
@[simp] theorem map_fin (f : K → K) (a : K) : map f (fin a) = fin (f a) := rfl
@[simp] theorem map_nan (f : K → K) : map f (nan : Dbl K) = nan := rfl

section Division

variable [Div K] [Zero K] [DecidableEq K]

theorem fin_div_fin (a b : K) :
    (fin a / fin b : Dbl K) = if b = 0 then nan else fin (a / b) := rfl

@[simp] theorem fin_div_fin_of_ne (a : K) {b : K} (h : b ≠ 0) :
    (fin a / fin b : Dbl K) = fin (a / b) := by
  rw [fin_div_fin, if_neg h]

@[simp] theorem fin_div_zero (a : K) : (fin a / fin 0 : Dbl K) = nan := by
  rw [fin_div_fin, if_pos rfl]

@[simp] theorem nan_div (x : Dbl K) : nan / x = nan := by cases x <;> rfl
@[simp] theorem div_nan (x : Dbl K) : x / nan = nan := by cases x <;> rfl

end Division

end Dbl

/-! ## Frame facts of the loop body -/

section Frame

variable {K : Type} [Field K] [DecidableEq K]
variable (P : Platform K) (ms : EffectWahwahSettings K)

theorem processSample_fst (data : EffectWahwahState K) (x : Dbl K) :
    (processSample P ms data x).1 =
      (let d := if data.skipcount % lfoskipsamples = 0 then
          recompute P ms { data with skipcount := data.skipcount + 1 }
        else { data with skipcount := data.skipcount + 1 }
       { d with
         xn2 := d.xn1
         xn1 := x
         yn2 := d.yn1
         yn1 := (d.b0 * x + d.b1 * d.xn1 + d.b2 * d.xn2 - d.a1 * d.yn1 - d.a2 * d.yn2) / d.a0 }) :=
  rfl

@[simp] theorem processSample_samplerate (data : EffectWahwahState K) (x : Dbl K) :
    (processSample P ms data x).1.samplerate = data.samplerate := by
  rw [processSample_fst]; dsimp only; split <;> rfl

@[simp] theorem processSample_lfoskip (data : EffectWahwahState K) (x : Dbl K) :
    (processSample P ms data x).1.lfoskip = data.lfoskip := by
  rw [processSample_fst]; dsimp only; split <;> rfl

@[simp] theorem processSample_depth (data : EffectWahwahState K) (x : Dbl K) :
    (processSample P ms data x).1.depth = data.depth := by
  rw [processSample_fst]; dsimp only; split <;> rfl

@[simp] theorem processSample_freqofs (data : EffectWahwahState K) (x : Dbl K) :
    (processSample P ms data x).1.freqofs = data.freqofs := by
  rw [processSample_fst]; dsimp only; split <;> rfl

@[simp] theorem processSample_phase (data : EffectWahwahState K) (x : Dbl K) :
    (processSample P ms data x).1.phase = data.phase := by
  rw [processSample_fst]; dsimp only; split <;> rfl

@[simp] theorem processSample_outgain (data : EffectWahwahState K) (x : Dbl K) :
    (processSample P ms data x).1.outgain = data.outgain := by
  rw [processSample_fst]; dsimp only; split <;> rfl

@[simp] theorem processSample_skipcount (data : EffectWahwahState K) (x : Dbl K) :
    (processSample P ms data x).1.skipcount = data.skipcount + 1 := by
  rw [processSample_fst]; dsimp only; split <;> rfl

/-- A state is a fixed point of `deriveFields` exactly when its five derived
fields already hold the derived values. -/
theorem deriveFields_eq_self_iff (data : EffectWahwahState K) :
    deriveFields P ms data = data ↔
      data.lfoskip = fin ms.mFreq * fin 2 * fin P.M_PI / data.samplerate ∧
      data.depth = fin (ms.mDepth : K) / fin 100 ∧
      data.freqofs = fin (ms.mFreqOfs : K) / fin 100 ∧
      data.phase = fin ms.mPhase * fin P.M_PI / fin 180 ∧
      data.outgain = fin (P.DB_TO_LINEAR ms.mOutGain) := by
  constructor
  · intro h
    refine ⟨?_, ?_, ?_, ?_, ?_⟩
    · exact (congrArg EffectWahwahState.lfoskip h).symm
    · exact (congrArg EffectWahwahState.depth h).symm
    · exact (congrArg EffectWahwahState.freqofs h).symm
    · exact (congrArg EffectWahwahState.phase h).symm
    · exact (congrArg EffectWahwahState.outgain h).symm
  · rintro ⟨h1, h2, h3, h4, h5⟩
    cases data
    simp only [deriveFields] at *
    subst h1 h2 h3 h4 h5
    rfl

theorem deriveFields_idem (data : EffectWahwahState K) :
    deriveFields P ms (deriveFields P ms data) = deriveFields P ms data := rfl

theorem deriveFields_processSample (data : EffectWahwahState K) (x : Dbl K)
    (h : deriveFields P ms data = data) :
    deriveFields P ms (processSample P ms data x).1 = (processSample P ms data x).1 := by
  rw [deriveFields_eq_self_iff] at h ⊢
  simpa using h

theorem deriveFields_processLoop (xs : List (Dbl K)) :
    ∀ data : EffectWahwahState K, deriveFields P ms data = data →
      deriveFields P ms (processLoop P ms data xs).1 = (processLoop P ms data xs).1 := by
  induction xs with
  | nil => intro data h; exact h
  | cons x xs ih =>
    intro data h
    exact ih _ (deriveFields_processSample P ms data x h)

theorem processLoop_cons (data : EffectWahwahState K) (x : Dbl K) (xs : List (Dbl K)) :
    processLoop P ms data (x :: xs) =
      ((processLoop P ms (processSample P ms data x).1 xs).1,
        (processSample P ms data x).2 :: (processLoop P ms (processSample P ms data x).1 xs).2) :=
  rfl

theorem processLoop_append (xs1 xs2 : List (Dbl K)) :
    ∀ data : EffectWahwahState K,
      processLoop P ms data (xs1 ++ xs2) =
        ((processLoop P ms (processLoop P ms data xs1).1 xs2).1,
          (processLoop P ms data xs1).2 ++ (processLoop P ms (processLoop P ms data xs1).1 xs2).2) := by
  induction xs1 with
  | nil => intro data; rfl
  | cons x xs ih =>
    intro data
    rw [List.cons_append, processLoop_cons, ih, processLoop_cons]
    rfl

end Frame

/-! ## The claims -/

section Claims

variable {K : Type} [Field K] [DecidableEq K]

/-- C1, block-size invariance: for every state, parameter record and input
split as `xs1 ++ xs2`, one call of `InstanceProcess` on the whole input gives
the same final state, the same output samples and the same count as a call on
`xs1` followed by a call on `xs2` from the state the first call left. -/
theorem InstanceProcess_block_size_invariance (P : Platform K)
    (ms : EffectWahwahSettings K) (s : EffectWahwahState K) (xs1 xs2 : List (Dbl K)) :
    InstanceProcess P ms s (xs1 ++ xs2) =
      ((InstanceProcess P ms (InstanceProcess P ms s xs1).1 xs2).1,
        (InstanceProcess P ms s xs1).2.1 ++
          (InstanceProcess P ms (InstanceProcess P ms s xs1).1 xs2).2.1,
        (InstanceProcess P ms s xs1).2.2 +
          (InstanceProcess P ms (InstanceProcess P ms s xs1).1 xs2).2.2) := by
  simp only [InstanceProcess, processLoop_append, List.length_append]
  rw [deriveFields_processLoop P ms xs1 _ (deriveFields_idem P ms s)]

/-- C7, postcondition of `InstanceInit`: for every sample rate `sr`, parameter
record and previous content `data`, the initialized state has
`samplerate = sr`, `skipcount = 0`, zero filter memory, six zero coefficients,
`lfoskip = 2*pi*mFreq/sr` (a floating-point division, non-finite at `sr = 0`),
`depth = mDepth/100`, `freqofs = mFreqOfs/100`, `phase = mPhase*pi/180` and
`outgain = DB_TO_LINEAR(mOutGain)`; the right-hand side does not mention
`data`, so the previous content is discarded. -/
theorem InstanceInit_postcondition [CharZero K] (P : Platform K)
    (ms : EffectWahwahSettings K) (data : EffectWahwahState K) (sr : K) :
    InstanceInit P ms data sr =
      { samplerate := fin sr
        skipcount := 0
        xn1 := fin 0
        xn2 := fin 0
        yn1 := fin 0
        yn2 := fin 0
        b0 := fin 0
        b1 := fin 0
        b2 := fin 0
        a0 := fin 0
        a1 := fin 0
        a2 := fin 0
        lfoskip := fin (2 * P.M_PI * ms.mFreq) / fin sr
        depth := fin ((ms.mDepth : K) / 100)
        freqofs := fin ((ms.mFreqOfs : K) / 100)
        phase := fin (ms.mPhase * P.M_PI / 180)
        outgain := fin (P.DB_TO_LINEAR ms.mOutGain) } ∧
    (InstanceInit P ms data sr).lfoskip =
      (if sr = 0 then nan else fin (2 * P.M_PI * ms.mFreq / sr)) := by
  have h100 : (100 : K) ≠ 0 := by norm_num
  have h180 : (180 : K) ≠ 0 := by norm_num
  have hmul : ms.mFreq * 2 * P.M_PI = 2 * P.M_PI * ms.mFreq := by ring
  constructor
  · simp only [InstanceInit, Dbl.fin_mul_fin, Dbl.fin_div_fin_of_ne _ h100,
      Dbl.fin_div_fin_of_ne _ h180, hmul]
  · simp only [InstanceInit, Dbl.fin_mul_fin, hmul, Dbl.fin_div_fin]

/-- Witness of C7 over the rationals: the sample parameter record at
44100 Hz, from the all-zero state. -/
theorem InstanceInit_postcondition_witness :
    InstanceInit ratPlatform sampleSettings zeroState 44100 =
      { samplerate := fin 44100
        skipcount := 0
        xn1 := fin 0
        xn2 := fin 0
        yn1 := fin 0
        yn2 := fin 0
        b0 := fin 0
        b1 := fin 0
        b2 := fin 0
        a0 := fin 0
        a1 := fin 0
        a2 := fin 0
        lfoskip := fin (2 * ratPlatform.M_PI * (sampleSettings : EffectWahwahSettings ℚ).mFreq) /
          fin 44100
        depth := fin ((((sampleSettings : EffectWahwahSettings ℚ).mDepth : Int) : ℚ) / 100)
        freqofs := fin ((((sampleSettings : EffectWahwahSettings ℚ).mFreqOfs : Int) : ℚ) / 100)
        phase := fin ((sampleSettings : EffectWahwahSettings ℚ).mPhase * ratPlatform.M_PI / 180)
        outgain := fin (ratPlatform.DB_TO_LINEAR
          (sampleSettings : EffectWahwahSettings ℚ).mOutGain) } ∧
    (InstanceInit ratPlatform sampleSettings zeroState 44100).lfoskip =
      (if (44100 : ℚ) = 0 then nan
        else fin (2 * ratPlatform.M_PI * (sampleSettings : EffectWahwahSettings ℚ).mFreq /
          44100)) :=
  InstanceInit_postcondition ratPlatform sampleSettings zeroState 44100

/-- C8, `RealtimeAddProcessor` appends: from an effect with `k` slaves, the
call returns `true`, the slave vector has `k + 1` entries, entries `0..k-1`
are the previous slaves in order, entry `k` is the state `InstanceInit` builds
for the sample rate on the current parameter record (from any previous
content), and the master state, the parameter record, the sample rate and the
block size are unchanged. -/
theorem RealtimeAddProcessor_appends (P : Platform K) (e : EffectWahwah K)
    (slave other : EffectWahwahState K) (sr : K) :
    (RealtimeAddProcessor P e slave sr).1 = true ∧
    (RealtimeAddProcessor P e slave sr).2.mSlaves.length = e.mSlaves.length + 1 ∧
    (RealtimeAddProcessor P e slave sr).2.mSlaves.take e.mSlaves.length = e.mSlaves ∧
    (RealtimeAddProcessor P e slave sr).2.mSlaves[e.mSlaves.length]? =
      some (InstanceInit P e.mSettings other sr) ∧
    (RealtimeAddProcessor P e slave sr).2.mMaster = e.mMaster ∧
    (RealtimeAddProcessor P e slave sr).2.mSettings = e.mSettings ∧
    (RealtimeAddProcessor P e slave sr).2.mSampleRate = e.mSampleRate ∧
    (RealtimeAddProcessor P e slave sr).2.mBlockSize = e.mBlockSize := by
  refine ⟨rfl, ?_, ?_, ?_, rfl, rfl, rfl, rfl⟩
  · simp [RealtimeAddProcessor]
  · simp [RealtimeAddProcessor]
  · simp [RealtimeAddProcessor, InstanceInit]

end Claims

section Lifecycle

variable {K : Type}

/-- C9, idempotent realtime teardown: from every effect state
`RealtimeFinalize` returns `true` and leaves no slave, changing nothing else;
a second `RealtimeFinalize` gives the same result as the first; and
`RealtimeInitialize` returns `true` and leaves no slave either. -/
theorem RealtimeFinalize_idempotent (e : EffectWahwah K) :
    (RealtimeFinalize e).1 = true ∧
    (RealtimeFinalize e).2.mSlaves = [] ∧
    (RealtimeFinalize e).2.mMaster = e.mMaster ∧
    (RealtimeFinalize e).2.mSettings = e.mSettings ∧
    RealtimeFinalize (RealtimeFinalize e).2 = RealtimeFinalize e ∧
    (RealtimeInitialize e).1 = true ∧
    (RealtimeInitialize e).2.mSlaves = [] ∧
    (RealtimeFinalize (RealtimeInitialize e).2).2 = (RealtimeInitialize e).2 :=
  ⟨rfl, rfl, rfl, rfl, rfl, rfl, rfl, rfl⟩

end Lifecycle

section Realtime

variable {K : Type} [Field K] [DecidableEq K]

theorem vectorIndex_of_lt {α : Type} (v : List α) (i : Nat) (h : i < v.length) :
    vectorIndex v (i : Int) = .ok (v.get ⟨i, h⟩) := by
  have h0 : ¬ ((i : Int) < 0) := by omega
  simp [vectorIndex, h0, List.getElem?_eq_getElem h]

theorem vectorIndex_of_not_lt {α : Type} (v : List α) (i : Int)
    (h : i < 0 ∨ (v.length : Int) ≤ i) :
    vectorIndex v i = .error .undefinedBehaviour := by
  unfold vectorIndex
  split
  · rfl
  · have hlen : v.length ≤ i.toNat := by omega
    rw [List.getElem?_eq_none hlen]

theorem RealtimeProcess_of_lt (P : Platform K) (e : EffectWahwah K) (i : Nat)
    (h : i < e.mSlaves.length) (inbuf : List (Dbl K)) :
    RealtimeProcess P e (i : Int) inbuf =
      .ok ({ e with
              mSlaves := e.mSlaves.set i
                (InstanceProcess P e.mSettings (e.mSlaves.get ⟨i, h⟩) inbuf).1 },
           (InstanceProcess P e.mSettings (e.mSlaves.get ⟨i, h⟩) inbuf).2) := by
  simp [RealtimeProcess, vectorIndex_of_lt _ _ h]

/-- C4, channel independence: for a valid channel index `i`, `RealtimeProcess`
succeeds and replaces only `mSlaves[i]`: the number of slaves, every other
slave, the master state and the parameter record are unchanged.  Hence for a
second valid channel `j ≠ i`, the output and the resulting slave state of a
later call on `j` are the same whatever input (`xs` or `xs'`) was fed to
channel `i` before, and the same as if `i` had not been processed. -/
theorem RealtimeProcess_channel_independence (P : Platform K) (e : EffectWahwah K)
    (i j : Nat) (hi : i < e.mSlaves.length) (hj : j < e.mSlaves.length) (hij : j ≠ i)
    (xs xs' ys : List (Dbl K)) :
    ∃ e1 e1' e2 e2' e3 : EffectWahwah K, ∃ o1 o1' o : List (Dbl K), ∃ n1 n1' n : Nat,
      RealtimeProcess P e (i : Int) xs = .ok (e1, o1, n1) ∧
      RealtimeProcess P e (i : Int) xs' = .ok (e1', o1', n1') ∧
      e1.mSlaves.length = e.mSlaves.length ∧
      (∀ k, k ≠ i → e1.mSlaves[k]? = e.mSlaves[k]?) ∧
      e1.mMaster = e.mMaster ∧ e1.mSettings = e.mSettings ∧
      RealtimeProcess P e1 (j : Int) ys = .ok (e2, o, n) ∧
      RealtimeProcess P e1' (j : Int) ys = .ok (e2', o, n) ∧
      RealtimeProcess P e (j : Int) ys = .ok (e3, o, n) ∧
      e2.mSlaves[j]? = e3.mSlaves[j]? ∧ e2'.mSlaves[j]? = e3.mSlaves[j]? := by
  have key : ∀ s : EffectWahwahState K,
      ∃ hj1 : j < (e.mSlaves.set i s).length,
        (e.mSlaves.set i s).get ⟨j, hj1⟩ = e.mSlaves.get ⟨j, hj⟩ := by
    intro s
    refine ⟨by simpa using hj, ?_⟩
    simp [List.getElem_set_ne (Ne.symm hij)]
  let r1 := InstanceProcess P e.mSettings (e.mSlaves.get ⟨i, hi⟩) xs
  let r1' := InstanceProcess P e.mSettings (e.mSlaves.get ⟨i, hi⟩) xs'
  let rj := InstanceProcess P e.mSettings (e.mSlaves.get ⟨j, hj⟩) ys
  obtain ⟨hj1, hget1⟩ := key r1.1
  obtain ⟨hj1', hget1'⟩ := key r1'.1
  refine ⟨{ e with mSlaves := e.mSlaves.set i r1.1 }, { e with mSlaves := e.mSlaves.set i r1'.1 },
    { e with mSlaves := (e.mSlaves.set i r1.1).set j rj.1 },
    { e with mSlaves := (e.mSlaves.set i r1'.1).set j rj.1 },
    { e with mSlaves := e.mSlaves.set j rj.1 },
    r1.2.1, r1'.2.1, rj.2.1, r1.2.2, r1'.2.2, rj.2.2,
    RealtimeProcess_of_lt P e i hi xs, RealtimeProcess_of_lt P e i hi xs', ?_, ?_, rfl, rfl,
    ?_, ?_, RealtimeProcess_of_lt P e j hj ys, ?_, ?_⟩
  · simp
  · intro k hk
    simp [List.getElem?_set_ne (Ne.symm hk)]
  · rw [RealtimeProcess_of_lt P _ j hj1 ys]
    simp only [hget1, rj]
  · rw [RealtimeProcess_of_lt P _ j hj1' ys]
    simp only [hget1', rj]
  · simp [hj]
  · simp [hj]

/-- Witness of C4 on the two-slave effect: channel 0 is fed two different
inputs, channel 1 is processed afterwards. -/
theorem RealtimeProcess_channel_independence_witness :
    ∃ e1 e1' e2 e2' e3 : EffectWahwah ℚ, ∃ o1 o1' o : List (Dbl ℚ), ∃ n1 n1' n : Nat,
      RealtimeProcess ratPlatform stereoEffect ((0 : Nat) : Int) [fin 1] = .ok (e1, o1, n1) ∧
      RealtimeProcess ratPlatform stereoEffect ((0 : Nat) : Int) [fin 2, fin 3] =
        .ok (e1', o1', n1') ∧
      e1.mSlaves.length = stereoEffect.mSlaves.length ∧
      (∀ k, k ≠ 0 → e1.mSlaves[k]? = stereoEffect.mSlaves[k]?) ∧
      e1.mMaster = stereoEffect.mMaster ∧ e1.mSettings = stereoEffect.mSettings ∧
      RealtimeProcess ratPlatform e1 ((1 : Nat) : Int) [fin 5] = .ok (e2, o, n) ∧
      RealtimeProcess ratPlatform e1' ((1 : Nat) : Int) [fin 5] = .ok (e2', o, n) ∧
      RealtimeProcess ratPlatform stereoEffect ((1 : Nat) : Int) [fin 5] = .ok (e3, o, n) ∧
      e2.mSlaves[1]? = e3.mSlaves[1]? ∧ e2'.mSlaves[1]? = e3.mSlaves[1]? :=
  RealtimeProcess_channel_independence ratPlatform stereoEffect 0 1
    (by decide) (by decide) (by decide) [fin 1] [fin 2, fin 3] [fin 5]

/-- C6, counterexample: on an effect with no slave, `RealtimeProcess` with
channel index 0 does not report an out-of-range condition; the unchecked
access has undefined behaviour.  The same holds for index -1 on the two-slave
effect. -/
theorem RealtimeProcess_bad_index_not_detected :
    RealtimeProcess ratPlatform idleEffect 0 [fin 1] ≠ .error .outOfRange ∧
    RealtimeProcess ratPlatform idleEffect 0 [fin 1] = .error .undefinedBehaviour ∧
    RealtimeProcess ratPlatform stereoEffect (-1) [fin 1] ≠ .error .outOfRange ∧
    RealtimeProcess ratPlatform stereoEffect 2 [fin 1] ≠ .error .outOfRange := by
  have h0 : RealtimeProcess ratPlatform idleEffect 0 [fin 1] = .error .undefinedBehaviour := by
    simp [RealtimeProcess, vectorIndex_of_not_lt idleEffect.mSlaves 0 (Or.inr (by decide))]
  have h1 : RealtimeProcess ratPlatform stereoEffect (-1) [fin 1] =
      .error .undefinedBehaviour := by
    simp [RealtimeProcess, vectorIndex_of_not_lt stereoEffect.mSlaves (-1) (Or.inl (by decide))]
  have h2 : RealtimeProcess ratPlatform stereoEffect 2 [fin 1] = .error .undefinedBehaviour := by
    simp [RealtimeProcess, vectorIndex_of_not_lt stereoEffect.mSlaves 2 (Or.inr (by decide))]
  refine ⟨?_, h0, ?_, ?_⟩
  · rw [h0]; intro h; cases h
  · rw [h1]; intro h; cases h
  · rw [h2]; intro h; cases h

/-- C6 as amended: `RealtimeProcess` does not check the channel index.  For
every index that is negative or not below the number of slaves, the access
`mSlaves[group]` is the unchecked `operator[]`: no out-of-range condition is
reported and no result is defined. -/
theorem RealtimeProcess_bad_index_unchecked (P : Platform K) (e : EffectWahwah K)
    (group : Int) (inbuf : List (Dbl K))
    (h : group < 0 ∨ (e.mSlaves.length : Int) ≤ group) :
    RealtimeProcess P e group inbuf = .error .undefinedBehaviour := by
  simp [RealtimeProcess, vectorIndex_of_not_lt e.mSlaves group h]

/-- Witness of the amended C6: index 0 on the effect with no slave. -/
theorem RealtimeProcess_bad_index_unchecked_witness :
    ((0 : Int) < 0 ∨ (idleEffect.mSlaves.length : Int) ≤ 0) ∧
    RealtimeProcess ratPlatform idleEffect 0 [fin 1] = .error .undefinedBehaviour :=
  ⟨Or.inr (by decide),
    RealtimeProcess_bad_index_unchecked ratPlatform idleEffect 0 [fin 1] (Or.inr (by decide))⟩

end Realtime

section Offline

variable {K : Type} [Field K] [DecidableEq K]

/-- C5, the code: the channel hint has no effect on `ProcessBlock`.  After
`ProcessInitialize` with the right-channel hint, `ProcessBlock` gives the same
effect state, output and count as after `ProcessInitialize` with any other
hint `c`, because `InstanceProcess` assigns `phase` from the parameter record
before the loop; the `phase` in use is `mPhase*pi/180`, without the offset
`pi`. -/
theorem ProcessBlock_ignores_channel_hint [CharZero K] (P : Platform K)
    (e : EffectWahwah K) (c : ChannelName) (inBlock : List (Dbl K)) :
    ProcessBlock P (ProcessInitialize P e ChannelName.ChannelNameFrontRight).2 inBlock =
      ProcessBlock P (ProcessInitialize P e c).2 inBlock ∧
    (ProcessBlock P (ProcessInitialize P e ChannelName.ChannelNameFrontRight).2
      inBlock).1.mMaster.phase = fin (e.mSettings.mPhase * P.M_PI / 180) ∧
    (ProcessInitialize P e ChannelName.ChannelNameFrontRight).2.mMaster.phase =
      fin (e.mSettings.mPhase * P.M_PI / 180 + P.M_PI) := by
  have h180 : (180 : K) ≠ 0 := by norm_num
  have hloop : ∀ (xs : List (Dbl K)) (d : EffectWahwahState K),
      (processLoop P e.mSettings d xs).1.phase = d.phase := by
    intro xs
    induction xs with
    | nil => intro d; rfl
    | cons x xs ih => intro d; rw [processLoop_cons]; simp [ih]
  refine ⟨?_, ?_, ?_⟩
  · by_cases hc : c = ChannelName.ChannelNameFrontRight
    · rw [hc]
    · simp [ProcessBlock, ProcessInitialize, InstanceProcess, deriveFields, hc]
  · have hms : (ProcessInitialize P e ChannelName.ChannelNameFrontRight).2.mSettings =
        e.mSettings := rfl
    simp only [ProcessBlock, InstanceProcess, hms, hloop]
    simp [deriveFields, Dbl.fin_div_fin_of_ne _ h180]
  · simp [ProcessInitialize, InstanceInit, Dbl.fin_div_fin_of_ne _ h180]

/-- Witness of C5 over the rationals: the idle effect, right channel against
left channel, one sample. -/
theorem ProcessBlock_ignores_channel_hint_witness :
    ProcessBlock ratPlatform
        (ProcessInitialize ratPlatform idleEffect ChannelName.ChannelNameFrontRight).2 [fin 1] =
      ProcessBlock ratPlatform
        (ProcessInitialize ratPlatform idleEffect ChannelName.ChannelNameFrontLeft).2 [fin 1] ∧
    (ProcessBlock ratPlatform
      (ProcessInitialize ratPlatform idleEffect ChannelName.ChannelNameFrontRight).2
      [fin 1]).1.mMaster.phase =
        fin (idleEffect.mSettings.mPhase * ratPlatform.M_PI / 180) ∧
    (ProcessInitialize ratPlatform idleEffect ChannelName.ChannelNameFrontRight).2.mMaster.phase =
      fin (idleEffect.mSettings.mPhase * ratPlatform.M_PI / 180 + ratPlatform.M_PI) :=
  ProcessBlock_ignores_channel_hint ratPlatform idleEffect ChannelName.ChannelNameFrontLeft
    [fin 1]

end Offline

section ControlRate

variable {K : Type} [Field K] [DecidableEq K]
variable (P : Platform K) (ms : EffectWahwahSettings K)

theorem processSample_coefficients_of_not_multiple (s : EffectWahwahState K) (x : Dbl K)
    (h : s.skipcount % lfoskipsamples ≠ 0) :
    coefficients (processSample P ms s x).1 = coefficients s := by
  rw [processSample_fst, if_neg h]
  rfl

theorem processSample_coefficients_of_multiple (s : EffectWahwahState K) (x : Dbl K)
    (h : s.skipcount % lfoskipsamples = 0) :
    coefficients (processSample P ms s x).1 =
      coefficients (recompute P ms { s with skipcount := s.skipcount + 1 }) := by
  rw [processSample_fst, if_pos h]
  rfl

theorem processLoop_skipcount (xs : List (Dbl K)) :
    ∀ d : EffectWahwahState K,
      (processLoop P ms d xs).1.skipcount = d.skipcount + xs.length := by
  induction xs with
  | nil => intro d; rfl
  | cons x xs ih =>
    intro d
    rw [processLoop_cons]
    simp only [ih, processSample_skipcount, List.length_cons]
    omega

theorem processLoop_take_succ (d : EffectWahwahState K) (xs : List (Dbl K)) (m : Nat)
    (h : m < xs.length) :
    (processLoop P ms d (xs.take (m + 1))).1 =
      (processSample P ms (processLoop P ms d (xs.take m)).1 (xs.get ⟨m, h⟩)).1 := by
  rw [List.take_succ, List.getElem?_eq_getElem h, processLoop_append]
  rfl

theorem processLoop_take_skipcount (d : EffectWahwahState K) (xs : List (Dbl K)) (m : Nat)
    (h : m ≤ xs.length) :
    (processLoop P ms d (xs.take m)).1.skipcount = d.skipcount + m := by
  rw [processLoop_skipcount, List.length_take, Nat.min_eq_left h]

/-- Between two multiples of `lfoskipsamples` the coefficients stay what the
last recompute made them. -/
theorem processLoop_coefficients_constant (d : EffectWahwahState K) (xs : List (Dbl K))
    (j : Nat) (hj : (d.skipcount + j) % lfoskipsamples = 0) :
    ∀ m, j ≤ m → m < j + lfoskipsamples → m < xs.length →
      coefficients (processLoop P ms d (xs.take (m + 1))).1 =
        coefficients (processLoop P ms d (xs.take (j + 1))).1 := by
  intro m hjm
  induction m, hjm using Nat.le_induction with
  | base => intro _ _; rfl
  | succ m hjm ih =>
    intro hlt hlen
    rw [processLoop_take_succ P ms d xs (m + 1) hlen,
      processSample_coefficients_of_not_multiple, ih (by omega) (by omega)]
    rw [processLoop_take_skipcount P ms d xs (m + 1) (by omega)]
    unfold lfoskipsamples at *
    omega

/-- C10, control-rate boundary: in the loop body of `InstanceProcess` a sample
leaves the six coefficients unchanged unless `skipcount` is a multiple of 30
when the sample starts, and then they become those of `recompute`.  Hence,
from a freshly initialized state and for every input `xs`, each run of 30
consecutive samples `k .. k+29` contains exactly one sample `j` at which
`skipcount` is a multiple of 30, and after each of the 29 samples that follow
`j` (as far as the input goes) the coefficients are those left by sample
`j`. -/
theorem coefficients_change_only_at_multiples_of_30 :
    (∀ (s : EffectWahwahState K) (x : Dbl K), s.skipcount % lfoskipsamples ≠ 0 →
      coefficients (processSample P ms s x).1 = coefficients s) ∧
    (∀ (s : EffectWahwahState K) (x : Dbl K), s.skipcount % lfoskipsamples = 0 →
      coefficients (processSample P ms s x).1 =
        coefficients (recompute P ms { s with skipcount := s.skipcount + 1 })) ∧
    (∀ (data : EffectWahwahState K) (sr : K) (xs : List (Dbl K)) (k : Nat),
      k + 30 ≤ xs.length →
      ∃ j, k ≤ j ∧ j < k + 30 ∧
        (InstanceProcess P ms (InstanceInit P ms data sr) (xs.take j)).1.skipcount
          % lfoskipsamples = 0 ∧
        (∀ i, k ≤ i → i < k + 30 →
          (InstanceProcess P ms (InstanceInit P ms data sr) (xs.take i)).1.skipcount
            % lfoskipsamples = 0 → i = j) ∧
        (∀ m, j ≤ m → m < j + 30 → m < xs.length →
          coefficients (InstanceProcess P ms (InstanceInit P ms data sr) (xs.take (m + 1))).1 =
            coefficients
              (InstanceProcess P ms (InstanceInit P ms data sr) (xs.take (j + 1))).1)) := by
  refine ⟨processSample_coefficients_of_not_multiple P ms,
    processSample_coefficients_of_multiple P ms, ?_⟩
  intro data sr xs k hk
  have hcount : ∀ i, i ≤ xs.length →
      (InstanceProcess P ms (InstanceInit P ms data sr) (xs.take i)).1.skipcount = i := by
    intro i hi
    have h := processLoop_take_skipcount P ms
      (deriveFields P ms (InstanceInit P ms data sr)) xs i hi
    have h0 : (deriveFields P ms (InstanceInit P ms data sr)).skipcount = 0 := rfl
    rw [h0, Nat.zero_add] at h
    exact h
  refine ⟨30 * ((k + 29) / 30), by omega, by omega, ?_, ?_, ?_⟩
  · rw [hcount _ (by omega)]
    unfold lfoskipsamples
    omega
  · intro i hki hik hi
    rw [hcount i (by omega)] at hi
    unfold lfoskipsamples at hi
    omega
  · intro m hjm hmj hm
    exact processLoop_coefficients_constant P ms
      (deriveFields P ms (InstanceInit P ms data sr)) xs (30 * ((k + 29) / 30))
      (by
        have h0 : (deriveFields P ms (InstanceInit P ms data sr)).skipcount = 0 := rfl
        rw [h0]
        unfold lfoskipsamples
        omega)
      m hjm hmj hm

/-- Witness of C10: a state with `skipcount = 7`, and the run of samples
10 .. 39 of a 45-sample input from a fresh state. -/
theorem coefficients_change_only_at_multiples_of_30_witness :
    (({ zeroState with skipcount := 7 } : EffectWahwahState ℚ).skipcount % lfoskipsamples ≠ 0 ∧
      coefficients
        (processSample ratPlatform sampleSettings { zeroState with skipcount := 7 } (fin 1)).1 =
        coefficients ({ zeroState with skipcount := 7 } : EffectWahwahState ℚ)) ∧
    (10 + 30 ≤ (List.replicate 45 (fin (1 : ℚ))).length ∧
      ∃ j, 10 ≤ j ∧ j < 10 + 30 ∧
        (InstanceProcess ratPlatform sampleSettings
          (InstanceInit ratPlatform sampleSettings zeroState 44100)
          ((List.replicate 45 (fin (1 : ℚ))).take j)).1.skipcount % lfoskipsamples = 0 ∧
        (∀ i, 10 ≤ i → i < 10 + 30 →
          (InstanceProcess ratPlatform sampleSettings
            (InstanceInit ratPlatform sampleSettings zeroState 44100)
            ((List.replicate 45 (fin (1 : ℚ))).take i)).1.skipcount % lfoskipsamples = 0 →
          i = j) ∧
        (∀ m, j ≤ m → m < j + 30 → m < (List.replicate 45 (fin (1 : ℚ))).length →
          coefficients (InstanceProcess ratPlatform sampleSettings
            (InstanceInit ratPlatform sampleSettings zeroState 44100)
            ((List.replicate 45 (fin (1 : ℚ))).take (m + 1))).1 =
          coefficients (InstanceProcess ratPlatform sampleSettings
            (InstanceInit ratPlatform sampleSettings zeroState 44100)
            ((List.replicate 45 (fin (1 : ℚ))).take (j + 1))).1)) :=
  ⟨⟨by decide,
    (coefficients_change_only_at_multiples_of_30 ratPlatform sampleSettings).1
      { zeroState with skipcount := 7 } (fin 1) (by decide)⟩,
   ⟨by simp,
    (coefficients_change_only_at_multiples_of_30 ratPlatform sampleSettings).2.2
      zeroState 44100 (List.replicate 45 (fin 1)) 10 (by simp)⟩⟩

end ControlRate

section Silence

variable {K : Type} [LinearOrderedField K]

/-- With finite derived fields, depth in `[0, 1]`, offset at most 1 and a positive
resonance, a recompute gives finite coefficients with `a0` at least 1. -/
theorem recompute_finite (P : Platform K) (hP : P.Sound) (ms : EffectWahwahSettings K)
    (hres : 0 < ms.mRes) (s : EffectWahwahState K) (l p d o : K)
    (hl : s.lfoskip = fin l) (hp : s.phase = fin p) (hd : s.depth = fin d)
    (ho : s.freqofs = fin o) (hd0 : 0 ≤ d) (hd1 : d ≤ 1) (ho1 : o ≤ 1) :
    ∃ b0 b1 b2 a0 a1 a2 : K,
      coefficients (recompute P ms s) = (fin b0, fin b1, fin b2, fin a0, fin a1, fin a2) ∧
        1 ≤ a0 := by
  have h2 : (2 : K) ≠ 0 := by norm_num
  have h2r : 2 * ms.mRes ≠ 0 := by positivity
  set c := P.cos ((s.skipcount : K) * l + p) with hc
  have hc0 : 0 ≤ (1 + c) / 2 := by
    have := hP.neg_one_le_cos ((s.skipcount : K) * l + p)
    apply div_nonneg <;> linarith
  have hc1 : (1 + c) / 2 ≤ 1 := by
    have := hP.cos_le_one ((s.skipcount : K) * l + p)
    rw [div_le_iff₀ (by norm_num : (0 : K) < 2)]
    linarith
  have hf : (1 + c) / 2 * d * (1 - o) + o ≤ 1 := by
    have h1 : (1 + c) / 2 * d ≤ 1 := by nlinarith
    nlinarith
  set f := P.exp (((1 + c) / 2 * d * (1 - o) + o - 1) * 6) with hfdef
  have hf0 : 0 ≤ f := hP.exp_nonneg _
  have hf1 : f ≤ 1 := hP.exp_le_one _ (by linarith)
  have hw0 : 0 ≤ P.M_PI * f := mul_nonneg hP.pi_nonneg hf0
  have hw1 : P.M_PI * f ≤ P.M_PI := by
    have := hP.pi_nonneg
    nlinarith
  have hsin : 0 ≤ P.sin (P.M_PI * f) := hP.sin_nonneg _ hw0 hw1
  refine ⟨(1 - P.cos (P.M_PI * f)) / 2, 1 - P.cos (P.M_PI * f), (1 - P.cos (P.M_PI * f)) / 2,
    1 + P.sin (P.M_PI * f) / (2 * ms.mRes), -2 * P.cos (P.M_PI * f),
    1 - P.sin (P.M_PI * f) / (2 * ms.mRes), ?_, ?_⟩
  · simp only [coefficients, recompute, hl, hp, hd, ho, Dbl.fin_mul_fin, Dbl.fin_add_fin,
      Dbl.fin_sub_fin, Dbl.map_fin, Dbl.fin_div_fin_of_ne _ h2, Dbl.fin_div_fin_of_ne _ h2r]
  · have : 0 ≤ P.sin (P.M_PI * f) / (2 * ms.mRes) := div_nonneg hsin (by positivity)
    linarith

/-- The filter step on a zero sample, from an intermediate state with zero
memory and finite coefficients whose `a0` is not zero, gives a zero raw
output. -/
theorem filter_zero (b0 b1 b2 a0 a1 a2 : K) (ha : a0 ≠ 0) :
    (fin b0 * fin 0 + fin b1 * fin 0 + fin b2 * fin 0 - fin a1 * fin 0 - fin a2 * fin 0) /
      fin a0 = (fin 0 : Dbl K) := by
  simp [Dbl.fin_div_fin_of_ne _ ha]

theorem processSample_quiet (P : Platform K) (hP : P.Sound) (ms : EffectWahwahSettings K)
    (hres : 0 < ms.mRes) (s : EffectWahwahState K) (l p d o g : K)
    (hl : s.lfoskip = fin l) (hp : s.phase = fin p) (hd : s.depth = fin d)
    (ho : s.freqofs = fin o) (hg : s.outgain = fin g)
    (hd0 : 0 ≤ d) (hd1 : d ≤ 1) (ho1 : o ≤ 1) (hq : Quiet s) :
    Quiet (processSample P ms s (fin 0)).1 ∧ (processSample P ms s (fin 0)).2 = fin 0 := by
  obtain ⟨hx1, hx2, hy1, hy2, hco⟩ := hq
  have key : ∀ D : EffectWahwahState K, D.xn1 = fin 0 → D.xn2 = fin 0 → D.yn1 = fin 0 →
      D.yn2 = fin 0 → D.outgain = fin g →
      (∃ b0 b1 b2 a0 a1 a2 : K,
        coefficients D = (fin b0, fin b1, fin b2, fin a0, fin a1, fin a2) ∧ 1 ≤ a0) →
      Quiet { D with
        xn2 := D.xn1
        xn1 := fin 0
        yn2 := D.yn1
        yn1 := (D.b0 * fin 0 + D.b1 * D.xn1 + D.b2 * D.xn2 - D.a1 * D.yn1 - D.a2 * D.yn2) /
          D.a0 } ∧
      (D.b0 * fin 0 + D.b1 * D.xn1 + D.b2 * D.xn2 - D.a1 * D.yn1 - D.a2 * D.yn2) / D.a0 *
        D.outgain = fin 0 := by
    intro D h1 h2 h3 h4 h5 ⟨b0, b1, b2, a0, a1, a2, hc, ha⟩
    have ha0 : a0 ≠ 0 := by
      intro h
      rw [h] at ha
      linarith
    simp only [coefficients, Prod.mk.injEq] at hc
    obtain ⟨e0, e1, e2, e3, e4, e5⟩ := hc
    have hout : (D.b0 * fin 0 + D.b1 * D.xn1 + D.b2 * D.xn2 - D.a1 * D.yn1 - D.a2 * D.yn2) /
        D.a0 = fin 0 := by
      rw [h1, h2, h3, h4, e0, e1, e2, e3, e4, e5]
      exact filter_zero b0 b1 b2 a0 a1 a2 ha0
    refine ⟨⟨rfl, h1, hout, h3, Or.inr ⟨b0, b1, b2, a0, a1, a2, ?_, ha⟩⟩, ?_⟩
    · simp only [coefficients, e0, e1, e2, e3, e4, e5]
    · rw [hout, h5]
      simp
  by_cases ht : s.skipcount % lfoskipsamples = 0
  · have hD := key (recompute P ms { s with skipcount := s.skipcount + 1 }) hx1 hx2 hy1 hy2 hg
      (recompute_finite P hP ms hres _ l p d o hl hp hd ho hd0 hd1 ho1)
    have e : processSample P ms s (fin 0) =
        ({ recompute P ms { s with skipcount := s.skipcount + 1 } with
            xn2 := s.xn1
            xn1 := fin 0
            yn2 := s.yn1
            yn1 := ((recompute P ms { s with skipcount := s.skipcount + 1 }).b0 * fin 0 +
              (recompute P ms { s with skipcount := s.skipcount + 1 }).b1 * s.xn1 +
              (recompute P ms { s with skipcount := s.skipcount + 1 }).b2 * s.xn2 -
              (recompute P ms { s with skipcount := s.skipcount + 1 }).a1 * s.yn1 -
              (recompute P ms { s with skipcount := s.skipcount + 1 }).a2 * s.yn2) /
              (recompute P ms { s with skipcount := s.skipcount + 1 }).a0 },
          ((recompute P ms { s with skipcount := s.skipcount + 1 }).b0 * fin 0 +
              (recompute P ms { s with skipcount := s.skipcount + 1 }).b1 * s.xn1 +
              (recompute P ms { s with skipcount := s.skipcount + 1 }).b2 * s.xn2 -
              (recompute P ms { s with skipcount := s.skipcount + 1 }).a1 * s.yn1 -
              (recompute P ms { s with skipcount := s.skipcount + 1 }).a2 * s.yn2) /
              (recompute P ms { s with skipcount := s.skipcount + 1 }).a0 * s.outgain) := by
      simp only [processSample, if_pos ht]
      rfl
    rw [e]
    exact hD
  · have hs : s.skipcount ≠ 0 := by
      intro h
      apply ht
      rw [h]
      rfl
    have hD := key { s with skipcount := s.skipcount + 1 } hx1 hx2 hy1 hy2 hg
      (hco.resolve_left hs)
    have e : processSample P ms s (fin 0) =
        ({ s with
            skipcount := s.skipcount + 1
            xn2 := s.xn1
            xn1 := fin 0
            yn2 := s.yn1
            yn1 := (s.b0 * fin 0 + s.b1 * s.xn1 + s.b2 * s.xn2 - s.a1 * s.yn1 - s.a2 * s.yn2) /
              s.a0 },
          (s.b0 * fin 0 + s.b1 * s.xn1 + s.b2 * s.xn2 - s.a1 * s.yn1 - s.a2 * s.yn2) / s.a0 *
            s.outgain) := by
      simp only [processSample, if_neg ht]
    rw [e]
    exact hD

theorem processLoop_quiet (P : Platform K) (hP : P.Sound) (ms : EffectWahwahSettings K)
    (hres : 0 < ms.mRes) (l p d o g : K) (hd0 : 0 ≤ d) (hd1 : d ≤ 1) (ho1 : o ≤ 1) (n : Nat) :
    ∀ s : EffectWahwahState K, s.lfoskip = fin l → s.phase = fin p → s.depth = fin d →
      s.freqofs = fin o → s.outgain = fin g → Quiet s →
      Quiet (processLoop P ms s (List.replicate n (fin 0))).1 ∧
        (processLoop P ms s (List.replicate n (fin 0))).2 = List.replicate n (fin 0) := by
  induction n with
  | zero => intro s _ _ _ _ _ hq; exact ⟨hq, rfl⟩
  | succ n ih =>
    intro s hl hp hd ho hg hq
    obtain ⟨hq1, hout⟩ := processSample_quiet P hP ms hres s l p d o g hl hp hd ho hg hd0 hd1 ho1 hq
    have h := ih (processSample P ms s (fin 0)).1 (by simpa using hl) (by simpa using hp)
      (by simpa using hd) (by simpa using ho) (by simpa using hg) hq1
    rw [List.replicate_succ, processLoop_cons, hout]
    exact ⟨h.1, by rw [h.2]⟩

/-- The real `pi`, `cos`, `sin` and `exp` have the properties of
`Platform.Sound`, whatever the dB mapping is. -/
theorem real_platform_sound (db : ℝ → ℝ) :
    Platform.Sound (⟨Real.pi, Real.cos, Real.sin, Real.exp, db⟩ : Platform ℝ) where
  pi_nonneg := Real.pi_pos.le
  neg_one_le_cos := Real.neg_one_le_cos
  cos_le_one := Real.cos_le_one
  exp_nonneg := fun x => (Real.exp_pos x).le
  exp_le_one := fun _ hx => Real.exp_le_one_iff.mpr hx
  sin_nonneg := fun _ h0 h1 => Real.sin_nonneg_of_nonneg_of_le_pi h0 h1

/-- C2 as amended, silence in, silence out: on a platform whose math functions
have the properties of the real ones, for every non-zero sample rate, every
parameter record with positive resonance and with depth and frequency offset
in `[0, 100]` percent, and every length `n`, `InstanceInit` followed by
`InstanceProcess` on `n` zero samples returns `n`, writes `n` zeros, and leaves
the filter memory `xn1, xn2, yn1, yn2` at zero. -/
theorem silence_in_silence_out (P : Platform K) (hP : P.Sound) (ms : EffectWahwahSettings K)
    (data : EffectWahwahState K) (sr : K) (n : Nat) (hsr : sr ≠ 0) (hres : 0 < ms.mRes)
    (hdepth : 0 ≤ ms.mDepth ∧ ms.mDepth ≤ 100)
    (hofs : 0 ≤ ms.mFreqOfs ∧ ms.mFreqOfs ≤ 100) :
    (InstanceProcess P ms (InstanceInit P ms data sr) (List.replicate n (fin 0))).2.1 =
      List.replicate n (fin 0) ∧
    memory (InstanceProcess P ms (InstanceInit P ms data sr) (List.replicate n (fin 0))).1 =
      (fin 0, fin 0, fin 0, fin 0) ∧
    (InstanceProcess P ms (InstanceInit P ms data sr) (List.replicate n (fin 0))).2.2 = n := by
  have h100 : (100 : K) ≠ 0 := by norm_num
  have h180 : (180 : K) ≠ 0 := by norm_num
  have hd0 : (0 : K) ≤ (ms.mDepth : K) / 100 := by
    have : (0 : K) ≤ (ms.mDepth : K) := by exact_mod_cast hdepth.1
    positivity
  have hd1 : (ms.mDepth : K) / 100 ≤ 1 := by
    have : (ms.mDepth : K) ≤ 100 := by exact_mod_cast hdepth.2
    rw [div_le_iff₀ (by norm_num : (0 : K) < 100)]
    linarith
  have ho1 : (ms.mFreqOfs : K) / 100 ≤ 1 := by
    have : (ms.mFreqOfs : K) ≤ 100 := by exact_mod_cast hofs.2
    rw [div_le_iff₀ (by norm_num : (0 : K) < 100)]
    linarith
  have h := processLoop_quiet P hP ms hres (ms.mFreq * 2 * P.M_PI / sr) (ms.mPhase * P.M_PI / 180)
    ((ms.mDepth : K) / 100) ((ms.mFreqOfs : K) / 100) (P.DB_TO_LINEAR ms.mOutGain) hd0 hd1 ho1 n
    (deriveFields P ms (InstanceInit P ms data sr))
    (by simp [deriveFields, InstanceInit, Dbl.fin_div_fin_of_ne _ hsr])
    (by simp [deriveFields, Dbl.fin_div_fin_of_ne _ h180])
    (by simp [deriveFields, Dbl.fin_div_fin_of_ne _ h100])
    (by simp [deriveFields, Dbl.fin_div_fin_of_ne _ h100])
    rfl
    ⟨rfl, rfl, rfl, rfl, Or.inl rfl⟩
  obtain ⟨⟨h1, h2, h3, h4, _⟩, hout⟩ := h
  refine ⟨hout, ?_, by simp [InstanceProcess]⟩
  simp only [memory, InstanceProcess, h1, h2, h3, h4]

/-- Witness of the amended C2: the real math functions, the sample parameter
record, 44100 Hz and 64 zero samples. -/
theorem silence_in_silence_out_witness :
    (Platform.Sound (⟨Real.pi, Real.cos, Real.sin, Real.exp, fun x => 10 ^ (x / 20)⟩ : Platform ℝ) ∧
      (44100 : ℝ) ≠ 0 ∧ 0 < (sampleSettings : EffectWahwahSettings ℝ).mRes ∧
      (0 ≤ (sampleSettings : EffectWahwahSettings ℝ).mDepth ∧
        (sampleSettings : EffectWahwahSettings ℝ).mDepth ≤ 100) ∧
      (0 ≤ (sampleSettings : EffectWahwahSettings ℝ).mFreqOfs ∧
        (sampleSettings : EffectWahwahSettings ℝ).mFreqOfs ≤ 100)) ∧
    ((InstanceProcess (⟨Real.pi, Real.cos, Real.sin, Real.exp, fun x => 10 ^ (x / 20)⟩ : Platform ℝ)
        sampleSettings (InstanceInit (⟨Real.pi, Real.cos, Real.sin, Real.exp, fun x => 10 ^ (x / 20)⟩ : Platform ℝ) sampleSettings zeroState 44100)
        (List.replicate 64 (fin 0))).2.1 = List.replicate 64 (fin 0) ∧
      memory (InstanceProcess (⟨Real.pi, Real.cos, Real.sin, Real.exp, fun x => 10 ^ (x / 20)⟩ : Platform ℝ)
        sampleSettings (InstanceInit (⟨Real.pi, Real.cos, Real.sin, Real.exp, fun x => 10 ^ (x / 20)⟩ : Platform ℝ) sampleSettings zeroState 44100)
        (List.replicate 64 (fin 0))).1 = (fin 0, fin 0, fin 0, fin 0) ∧
      (InstanceProcess (⟨Real.pi, Real.cos, Real.sin, Real.exp, fun x => 10 ^ (x / 20)⟩ : Platform ℝ)
        sampleSettings (InstanceInit (⟨Real.pi, Real.cos, Real.sin, Real.exp, fun x => 10 ^ (x / 20)⟩ : Platform ℝ) sampleSettings zeroState 44100)
        (List.replicate 64 (fin 0))).2.2 = 64) :=
  ⟨⟨real_platform_sound _, by norm_num, by norm_num [sampleSettings],
      by simp [sampleSettings], by simp [sampleSettings]⟩,
    silence_in_silence_out _ (real_platform_sound _) sampleSettings zeroState 44100 64
      (by norm_num) (by norm_num [sampleSettings]) (by simp [sampleSettings])
      (by simp [sampleSettings])⟩

/-- C2, counterexample: with the real math functions, depth 0, offset 0 and
the non-zero resonance `-sin(pi*exp(-6))/2`, the first recompute gives
`a0 = 0`, and one zero sample at 44100 Hz gives a non-finite output instead of
zero.  With the sample parameter record and sample rate 0, `lfoskip` is
non-finite and the output of one zero sample is non-finite too. -/
theorem silence_fails_for_negative_resonance :
    (-(Real.sin (Real.pi * Real.exp (-6))) / 2 ≠ 0) ∧
    (InstanceProcess (⟨Real.pi, Real.cos, Real.sin, Real.exp, fun x => 10 ^ (x / 20)⟩ : Platform ℝ)
      ⟨3 / 2, 0, 0, -(Real.sin (Real.pi * Real.exp (-6))) / 2, 0, -6⟩
      (InstanceInit (⟨Real.pi, Real.cos, Real.sin, Real.exp, fun x => 10 ^ (x / 20)⟩ : Platform ℝ)
        ⟨3 / 2, 0, 0, -(Real.sin (Real.pi * Real.exp (-6))) / 2, 0, -6⟩ zeroState 44100)
      [fin 0]).2.1 = [nan] ∧
    (InstanceProcess (⟨Real.pi, Real.cos, Real.sin, Real.exp, fun x => 10 ^ (x / 20)⟩ : Platform ℝ)
      sampleSettings
      (InstanceInit (⟨Real.pi, Real.cos, Real.sin, Real.exp, fun x => 10 ^ (x / 20)⟩ : Platform ℝ) sampleSettings zeroState 0)
      [fin 0]).2.1 = [nan] := by
  have hlt : Real.exp (-6) < 1 := by
    have h := Real.exp_lt_exp.mpr (show (-6 : ℝ) < 0 by norm_num)
    rw [Real.exp_zero] at h
    exact h
  have hs : 0 < Real.sin (Real.pi * Real.exp (-6)) := by
    apply Real.sin_pos_of_pos_of_lt_pi
    · positivity
    · have := Real.pi_pos
      nlinarith
  have hne : -(Real.sin (Real.pi * Real.exp (-6))) / 2 ≠ 0 := by
    intro h
    linarith
  have h2 : 2 * (-(Real.sin (Real.pi * Real.exp (-6))) / 2) ≠ 0 := by
    intro h
    linarith
  have ha : 1 + Real.sin (Real.pi * Real.exp (-6)) /
      (2 * (-(Real.sin (Real.pi * Real.exp (-6))) / 2)) = 0 := by
    field_simp
    ring
  refine ⟨hne, ?_, ?_⟩
  · simp [InstanceProcess, InstanceInit, deriveFields, processLoop, processSample, recompute,
      lfoskipsamples, Dbl.fin_div_fin, h2, ha]
  · simp [InstanceProcess, InstanceInit, deriveFields, processLoop, processSample, recompute,
      lfoskipsamples, Dbl.fin_div_fin, sampleSettings]

end Silence

section Gain

variable {K : Type} [Field K] [DecidableEq K]

theorem recompute_outgain (P : Platform K) (ms ms' : EffectWahwahSettings K)
    (h : ms'.mRes = ms.mRes) (s : EffectWahwahState K) (g : Dbl K) :
    recompute P ms' { s with outgain := g } = { recompute P ms s with outgain := g } := by
  simp only [recompute, h]

theorem processSample_outgain_fst (P : Platform K) (ms ms' : EffectWahwahSettings K)
    (h : ms'.mRes = ms.mRes) (s : EffectWahwahState K) (g : Dbl K) (x : Dbl K) :
    (processSample P ms' { s with outgain := g } x).1 =
      { (processSample P ms s x).1 with outgain := g } := by
  by_cases ht : s.skipcount % lfoskipsamples = 0
  · simp only [processSample, if_pos ht, recompute, h]
  · simp only [processSample, if_neg ht]

theorem processSample_snd (P : Platform K) (ms : EffectWahwahSettings K)
    (s : EffectWahwahState K) (x : Dbl K) :
    (processSample P ms s x).2 = (processSample P ms s x).1.yn1 * s.outgain := by
  by_cases ht : s.skipcount % lfoskipsamples = 0
  · simp only [processSample, if_pos ht, recompute]
  · simp only [processSample, if_neg ht]

theorem rescale (y : Dbl K) (g1 g2 : K) (h : g1 ≠ 0) :
    y * fin g2 = y * fin g1 * (fin g2 / fin g1) := by
  cases y with
  | nan => simp
  | fin r =>
    simp only [Dbl.fin_mul_fin, Dbl.fin_div_fin_of_ne _ h]
    congr 1
    field_simp
    ring

theorem processLoop_outgain (P : Platform K) (ms ms' : EffectWahwahSettings K)
    (h : ms'.mRes = ms.mRes) (g1 g2 : K) (hg : g1 ≠ 0) (xs : List (Dbl K)) :
    ∀ s : EffectWahwahState K, s.outgain = fin g1 →
      (processLoop P ms' { s with outgain := fin g2 } xs).1 =
        { (processLoop P ms s xs).1 with outgain := fin g2 } ∧
      (processLoop P ms' { s with outgain := fin g2 } xs).2 =
        (processLoop P ms s xs).2.map (fun y => y * (fin g2 / fin g1)) := by
  induction xs with
  | nil => intro s _; exact ⟨rfl, rfl⟩
  | cons x xs ih =>
    intro s hs
    have h1 := processSample_outgain_fst P ms ms' h s (fin g2) x
    have ih' := ih (processSample P ms s x).1 (by simpa using hs)
    have e2 : (processSample P ms' { s with outgain := fin g2 } x).2 =
        (processSample P ms s x).2 * (fin g2 / fin g1) := by
      rw [processSample_snd, processSample_snd P ms s x, h1, hs]
      exact rescale _ g1 g2 hg
    rw [processLoop_cons, processLoop_cons, h1, e2]
    exact ⟨ih'.1, by rw [ih'.2]; rfl⟩

/-- C3, gain isolation: two runs of `InstanceInit` + `InstanceProcess` on the
same sample rate and input, with parameter records that differ only in
`mOutGain` (`ms.mOutGain` versus `g2`), end with the same filter memory,
`skipcount` and coefficients, and each output sample of the second run is the
sample of the first multiplied by
`DB_TO_LINEAR(g2) / DB_TO_LINEAR(ms.mOutGain)`, the linear gain of the first
run being non-zero.  In the loop body the sample written out is the raw output
already stored in `yn1`, times `outgain`. -/
theorem gain_isolation (P : Platform K) (ms : EffectWahwahSettings K) (g2 : K)
    (data1 data2 : EffectWahwahState K) (sr : K) (xs : List (Dbl K))
    (hg : P.DB_TO_LINEAR ms.mOutGain ≠ 0) :
    memory (InstanceProcess P { ms with mOutGain := g2 }
        (InstanceInit P { ms with mOutGain := g2 } data2 sr) xs).1 =
      memory (InstanceProcess P ms (InstanceInit P ms data1 sr) xs).1 ∧
    (InstanceProcess P { ms with mOutGain := g2 }
        (InstanceInit P { ms with mOutGain := g2 } data2 sr) xs).1.skipcount =
      (InstanceProcess P ms (InstanceInit P ms data1 sr) xs).1.skipcount ∧
    coefficients (InstanceProcess P { ms with mOutGain := g2 }
        (InstanceInit P { ms with mOutGain := g2 } data2 sr) xs).1 =
      coefficients (InstanceProcess P ms (InstanceInit P ms data1 sr) xs).1 ∧
    (InstanceProcess P { ms with mOutGain := g2 }
        (InstanceInit P { ms with mOutGain := g2 } data2 sr) xs).2.1 =
      (InstanceProcess P ms (InstanceInit P ms data1 sr) xs).2.1.map
        (fun y => y * (fin (P.DB_TO_LINEAR g2) / fin (P.DB_TO_LINEAR ms.mOutGain))) ∧
    (∀ (s : EffectWahwahState K) (x : Dbl K),
      (processSample P ms s x).2 = (processSample P ms s x).1.yn1 * s.outgain) := by
  have h0 : deriveFields P { ms with mOutGain := g2 }
        (InstanceInit P { ms with mOutGain := g2 } data2 sr) =
      { deriveFields P ms (InstanceInit P ms data1 sr) with
        outgain := fin (P.DB_TO_LINEAR g2) } := rfl
  have hl := processLoop_outgain P ms { ms with mOutGain := g2 } rfl
    (P.DB_TO_LINEAR ms.mOutGain) (P.DB_TO_LINEAR g2) hg xs
    (deriveFields P ms (InstanceInit P ms data1 sr)) rfl
  refine ⟨?_, ?_, ?_, ?_, processSample_snd P ms⟩
  · simp only [InstanceProcess, h0, hl.1]
    rfl
  · simp only [InstanceProcess, h0, hl.1]
  · simp only [InstanceProcess, h0, hl.1]
    rfl
  · simp only [InstanceProcess, h0, hl.2]

/-- Witness of C3: the sample parameter record (-6 dB) against 0 dB, on two
samples at 44100 Hz. -/
theorem gain_isolation_witness :
    ratPlatform.DB_TO_LINEAR (sampleSettings : EffectWahwahSettings ℚ).mOutGain ≠ 0 ∧
    (memory (InstanceProcess ratPlatform { sampleSettings with mOutGain := 0 }
        (InstanceInit ratPlatform { sampleSettings with mOutGain := 0 } zeroState 44100)
        [fin 1, fin 2]).1 =
      memory (InstanceProcess ratPlatform sampleSettings
        (InstanceInit ratPlatform sampleSettings zeroState 44100) [fin 1, fin 2]).1 ∧
    (InstanceProcess ratPlatform { sampleSettings with mOutGain := 0 }
        (InstanceInit ratPlatform { sampleSettings with mOutGain := 0 } zeroState 44100)
        [fin 1, fin 2]).1.skipcount =
      (InstanceProcess ratPlatform sampleSettings
        (InstanceInit ratPlatform sampleSettings zeroState 44100) [fin 1, fin 2]).1.skipcount ∧
    coefficients (InstanceProcess ratPlatform { sampleSettings with mOutGain := 0 }
        (InstanceInit ratPlatform { sampleSettings with mOutGain := 0 } zeroState 44100)
        [fin 1, fin 2]).1 =
      coefficients (InstanceProcess ratPlatform sampleSettings
        (InstanceInit ratPlatform sampleSettings zeroState 44100) [fin 1, fin 2]).1 ∧
    (InstanceProcess ratPlatform { sampleSettings with mOutGain := 0 }
        (InstanceInit ratPlatform { sampleSettings with mOutGain := 0 } zeroState 44100)
        [fin 1, fin 2]).2.1 =
      (InstanceProcess ratPlatform sampleSettings
        (InstanceInit ratPlatform sampleSettings zeroState 44100) [fin 1, fin 2]).2.1.map
        (fun y => y * (fin (ratPlatform.DB_TO_LINEAR 0) /
          fin (ratPlatform.DB_TO_LINEAR (sampleSettings : EffectWahwahSettings ℚ).mOutGain))) ∧
    (∀ (s : EffectWahwahState ℚ) (x : Dbl ℚ),
      (processSample ratPlatform sampleSettings s x).2 =
        (processSample ratPlatform sampleSettings s x).1.yn1 * s.outgain)) :=
  ⟨by norm_num [ratPlatform, sampleSettings],
    gain_isolation ratPlatform sampleSettings 0 zeroState zeroState 44100 [fin 1, fin 2]
      (by norm_num [ratPlatform, sampleSettings])⟩

end Gain

section HotReload

variable {K : Type} [Field K] [DecidableEq K]

/-- The loop of `InstanceProcess` leaves `samplerate` and the five derived
fields as they were when it started. -/
theorem processLoop_frame (P : Platform K) (ms : EffectWahwahSettings K) (xs : List (Dbl K)) :
    ∀ d : EffectWahwahState K,
      (processLoop P ms d xs).1.samplerate = d.samplerate ∧
      (processLoop P ms d xs).1.lfoskip = d.lfoskip ∧
      (processLoop P ms d xs).1.depth = d.depth ∧
      (processLoop P ms d xs).1.freqofs = d.freqofs ∧
      (processLoop P ms d xs).1.phase = d.phase ∧
      (processLoop P ms d xs).1.outgain = d.outgain := by
  induction xs with
  | nil => intro d; exact ⟨rfl, rfl, rfl, rfl, rfl, rfl⟩
  | cons x xs ih =>
    intro d
    rw [processLoop_cons]
    simpa using ih (processSample P ms d x).1

/-- C11, parameter hot-reload: `InstanceProcess` on an empty block returns 0,
writes nothing, and changes only `lfoskip`, `depth`, `freqofs`, `phase` and
`outgain`, which are set from the parameter record and the state's own
`samplerate`.  On every block the loop starts from the state with exactly
these five fields replaced (memory, `skipcount`, `samplerate` and coefficients
as the caller left them), so the result does not depend on what the five
fields held before; after the call they hold the derived values, `samplerate`
is unchanged and `skipcount` has grown by the block length. -/
theorem InstanceProcess_hot_reload (P : Platform K) (ms : EffectWahwahSettings K)
    (s : EffectWahwahState K) (xs : List (Dbl K)) (l d o p g : Dbl K) :
    InstanceProcess P ms s [] =
      ({ s with
          lfoskip := fin ms.mFreq * fin 2 * fin P.M_PI / s.samplerate
          depth := fin (ms.mDepth : K) / fin 100
          freqofs := fin (ms.mFreqOfs : K) / fin 100
          phase := fin ms.mPhase * fin P.M_PI / fin 180
          outgain := fin (P.DB_TO_LINEAR ms.mOutGain) }, [], 0) ∧
    InstanceProcess P ms s xs =
      ((processLoop P ms
          { s with
            lfoskip := fin ms.mFreq * fin 2 * fin P.M_PI / s.samplerate
            depth := fin (ms.mDepth : K) / fin 100
            freqofs := fin (ms.mFreqOfs : K) / fin 100
            phase := fin ms.mPhase * fin P.M_PI / fin 180
            outgain := fin (P.DB_TO_LINEAR ms.mOutGain) } xs).1,
        (processLoop P ms
          { s with
            lfoskip := fin ms.mFreq * fin 2 * fin P.M_PI / s.samplerate
            depth := fin (ms.mDepth : K) / fin 100
            freqofs := fin (ms.mFreqOfs : K) / fin 100
            phase := fin ms.mPhase * fin P.M_PI / fin 180
            outgain := fin (P.DB_TO_LINEAR ms.mOutGain) } xs).2,
        xs.length) ∧
    InstanceProcess P ms
        { s with lfoskip := l, depth := d, freqofs := o, phase := p, outgain := g } xs =
      InstanceProcess P ms s xs ∧
    (InstanceProcess P ms s xs).1.lfoskip =
      fin ms.mFreq * fin 2 * fin P.M_PI / s.samplerate ∧
    (InstanceProcess P ms s xs).1.depth = fin (ms.mDepth : K) / fin 100 ∧
    (InstanceProcess P ms s xs).1.freqofs = fin (ms.mFreqOfs : K) / fin 100 ∧
    (InstanceProcess P ms s xs).1.phase = fin ms.mPhase * fin P.M_PI / fin 180 ∧
    (InstanceProcess P ms s xs).1.outgain = fin (P.DB_TO_LINEAR ms.mOutGain) ∧
    (InstanceProcess P ms s xs).1.samplerate = s.samplerate ∧
    (InstanceProcess P ms s xs).1.skipcount = s.skipcount + xs.length ∧
    (InstanceProcess P ms s xs).2.2 = xs.length := by
  obtain ⟨h1, h2, h3, h4, h5, h6⟩ := processLoop_frame P ms xs (deriveFields P ms s)
  refine ⟨rfl, rfl, rfl, h2, h3, h4, h5, h6, h1, ?_, rfl⟩
  exact processLoop_skipcount P ms xs (deriveFields P ms s)

end HotReload

section Timing

variable {K : Type} [Field K] [DecidableEq K]

/-- With finite derived fields, the coefficient `b1` a recompute leaves is
`1 - cos omega`, where the LFO argument is the state's `skipcount` times
`lfoskip` plus `phase`. -/
theorem recompute_b1 [CharZero K] (P : Platform K) (ms : EffectWahwahSettings K)
    (s : EffectWahwahState K) (l p d o : K) (hl : s.lfoskip = fin l) (hp : s.phase = fin p)
    (hd : s.depth = fin d) (ho : s.freqofs = fin o) :
    (recompute P ms s).b1 =
      fin (1 - P.cos (P.M_PI * P.exp
        (((1 + P.cos ((s.skipcount : K) * l + p)) / 2 * d * (1 - o) + o - 1) * 6))) := by
  have h2 : (2 : K) ≠ 0 := by norm_num
  simp only [recompute, hl, hp, hd, ho, Dbl.fin_mul_fin, Dbl.fin_add_fin, Dbl.fin_sub_fin,
    Dbl.map_fin, Dbl.fin_div_fin_of_ne _ h2]

/-- C12 as amended, recompute timing: the loop body tests `skipcount` before
incrementing it.  After a sample `skipcount` is one more than before; when the
incremented `skipcount` is 1 modulo 30 (the value before the increment was a
multiple of 30) the coefficients are those of `recompute` on the state with
the incremented `skipcount`, and otherwise they are the previous ones.  The
LFO argument of the recompute is the incremented `skipcount` times `lfoskip`
plus `phase`, as `b1 = 1 - cos omega` shows for finite derived fields. -/
theorem recompute_timing [CharZero K] (P : Platform K) (ms : EffectWahwahSettings K)
    (s : EffectWahwahState K) (x : Dbl K) (l p d o : K) (hl : s.lfoskip = fin l)
    (hp : s.phase = fin p) (hd : s.depth = fin d) (ho : s.freqofs = fin o) :
    (processSample P ms s x).1.skipcount = s.skipcount + 1 ∧
    ((processSample P ms s x).1.skipcount % lfoskipsamples ≠ 1 →
      coefficients (processSample P ms s x).1 = coefficients s) ∧
    ((processSample P ms s x).1.skipcount % lfoskipsamples = 1 →
      coefficients (processSample P ms s x).1 =
          coefficients (recompute P ms { s with skipcount := s.skipcount + 1 }) ∧
        (processSample P ms s x).1.b1 =
          fin (1 - P.cos (P.M_PI * P.exp
            (((1 + P.cos (((s.skipcount + 1 : Nat) : K) * l + p)) / 2 * d * (1 - o) + o - 1)
              * 6)))) := by
  refine ⟨processSample_skipcount P ms s x, ?_, ?_⟩
  · intro h
    rw [processSample_skipcount] at h
    apply processSample_coefficients_of_not_multiple
    unfold lfoskipsamples at *
    omega
  · intro h
    rw [processSample_skipcount] at h
    have ht : s.skipcount % lfoskipsamples = 0 := by
      unfold lfoskipsamples at *
      omega
    have hc := processSample_coefficients_of_multiple P ms s x ht
    refine ⟨hc, ?_⟩
    have hb : (processSample P ms s x).1.b1 =
        (recompute P ms { s with skipcount := s.skipcount + 1 }).b1 := by
      have := congrArg (fun c => c.2.1) hc
      simpa [coefficients] using this
    rw [hb]
    exact recompute_b1 P ms { s with skipcount := s.skipcount + 1 } l p d o hl hp hd ho

/-- Witness of the amended C12: the all-zero state with `skipcount = 30`. -/
theorem recompute_timing_witness :
    (processSample ratPlatform sampleSettings { zeroState with skipcount := 30 }
      (fin 1)).1.skipcount = 30 + 1 ∧
    ((processSample ratPlatform sampleSettings { zeroState with skipcount := 30 }
        (fin 1)).1.skipcount % lfoskipsamples ≠ 1 →
      coefficients (processSample ratPlatform sampleSettings
        { zeroState with skipcount := 30 } (fin 1)).1 =
        coefficients ({ zeroState with skipcount := 30 } : EffectWahwahState ℚ)) ∧
    ((processSample ratPlatform sampleSettings { zeroState with skipcount := 30 }
        (fin 1)).1.skipcount % lfoskipsamples = 1 →
      coefficients (processSample ratPlatform sampleSettings
          { zeroState with skipcount := 30 } (fin 1)).1 =
        coefficients (recompute ratPlatform sampleSettings
          { zeroState with skipcount := 30 + 1 }) ∧
      (processSample ratPlatform sampleSettings { zeroState with skipcount := 30 }
          (fin 1)).1.b1 =
        fin (1 - ratPlatform.cos (ratPlatform.M_PI * ratPlatform.exp
          (((1 + ratPlatform.cos (((30 + 1 : Nat) : ℚ) * 0 + 0)) / 2 * 0 * (1 - 0) + 0 - 1)
            * 6)))) :=
  recompute_timing ratPlatform sampleSettings { zeroState with skipcount := 30 } (fin 1)
    0 0 0 0 rfl rfl rfl rfl

end Timing

section Guard

variable {K : Type} [LinearOrderedField K]

/-- With finite derived fields and a non-zero resonance, the coefficient `a0`
a recompute leaves is `1 + sin(omega) / (2 * mRes)`. -/
theorem recompute_a0 (P : Platform K) (ms : EffectWahwahSettings K)
    (s : EffectWahwahState K) (l p d o : K) (hl : s.lfoskip = fin l) (hp : s.phase = fin p)
    (hd : s.depth = fin d) (ho : s.freqofs = fin o) (hres : ms.mRes ≠ 0) :
    (recompute P ms s).a0 =
      fin (1 + P.sin (P.M_PI * P.exp
        (((1 + P.cos ((s.skipcount : K) * l + p)) / 2 * d * (1 - o) + o - 1) * 6)) /
          (2 * ms.mRes)) := by
  have h2 : (2 : K) ≠ 0 := by norm_num
  have h2r : 2 * ms.mRes ≠ 0 := mul_ne_zero h2 hres
  simp only [recompute, hl, hp, hd, ho, Dbl.fin_mul_fin, Dbl.fin_add_fin, Dbl.fin_sub_fin,
    Dbl.map_fin, Dbl.fin_div_fin_of_ne _ h2, Dbl.fin_div_fin_of_ne _ h2r]

theorem processSample_guarded (P : Platform K) (hP : P.Sound) (ms : EffectWahwahSettings K)
    (hres : 0 < ms.mRes) (s : EffectWahwahState K) (l p d o : K)
    (hl : s.lfoskip = fin l) (hp : s.phase = fin p) (hd : s.depth = fin d)
    (ho : s.freqofs = fin o) (hd0 : 0 ≤ d) (hd1 : d ≤ 1) (ho1 : o ≤ 1) (x : Dbl K)
    (h : s.skipcount = 0 ∨ Guarded s) : Guarded (processSample P ms s x).1 := by
  unfold Guarded
  by_cases ht : s.skipcount % lfoskipsamples = 0
  · rw [processSample_coefficients_of_multiple P ms s x ht]
    exact recompute_finite P hP ms hres _ l p d o hl hp hd ho hd0 hd1 ho1
  · rw [processSample_coefficients_of_not_multiple P ms s x ht]
    refine h.resolve_left ?_
    intro h0
    apply ht
    rw [h0]
    rfl

theorem processLoop_guarded (P : Platform K) (hP : P.Sound) (ms : EffectWahwahSettings K)
    (hres : 0 < ms.mRes) (l p d o : K) (hd0 : 0 ≤ d) (hd1 : d ≤ 1) (ho1 : o ≤ 1)
    (xs : List (Dbl K)) :
    ∀ s : EffectWahwahState K, s.lfoskip = fin l → s.phase = fin p → s.depth = fin d →
      s.freqofs = fin o → Guarded s → Guarded (processLoop P ms s xs).1 := by
  induction xs with
  | nil => intro s _ _ _ _ h; exact h
  | cons x xs ih =>
    intro s hl hp hd ho h
    rw [processLoop_cons]
    exact ih _ (by simpa using hl) (by simpa using hp) (by simpa using hd) (by simpa using ho)
      (processSample_guarded P hP ms hres s l p d o hl hp hd ho hd0 hd1 ho1 x (Or.inr h))

/-- After a non-empty block, from a state with a finite non-zero
`samplerate` whose coefficients are either not yet computed (`skipcount = 0`)
or guarded, the coefficients are guarded. -/
theorem InstanceProcess_guarded (P : Platform K) (hP : P.Sound) (ms : EffectWahwahSettings K)
    (hres : 0 < ms.mRes) (hdepth : 0 ≤ ms.mDepth ∧ ms.mDepth ≤ 100)
    (hofs : 0 ≤ ms.mFreqOfs ∧ ms.mFreqOfs ≤ 100) (sr : K) (hsr : sr ≠ 0)
    (t : EffectWahwahState K) (ht : t.samplerate = fin sr)
    (hstart : t.skipcount = 0 ∨ Guarded t) (x : Dbl K) (xs : List (Dbl K)) :
    Guarded (InstanceProcess P ms t (x :: xs)).1 := by
  have h100 : (100 : K) ≠ 0 := by norm_num
  have h180 : (180 : K) ≠ 0 := by norm_num
  have hd0 : (0 : K) ≤ (ms.mDepth : K) / 100 := by
    have : (0 : K) ≤ (ms.mDepth : K) := by exact_mod_cast hdepth.1
    positivity
  have hd1 : (ms.mDepth : K) / 100 ≤ 1 := by
    have : (ms.mDepth : K) ≤ 100 := by exact_mod_cast hdepth.2
    rw [div_le_iff₀ (by norm_num : (0 : K) < 100)]
    linarith
  have ho1 : (ms.mFreqOfs : K) / 100 ≤ 1 := by
    have : (ms.mFreqOfs : K) ≤ 100 := by exact_mod_cast hofs.2
    rw [div_le_iff₀ (by norm_num : (0 : K) < 100)]
    linarith
  have hlt : (deriveFields P ms t).lfoskip = fin (ms.mFreq * 2 * P.M_PI / sr) := by
    simp [deriveFields, ht, Dbl.fin_div_fin_of_ne _ hsr]
  have hpt : (deriveFields P ms t).phase = fin (ms.mPhase * P.M_PI / 180) := by
    simp [deriveFields, Dbl.fin_div_fin_of_ne _ h180]
  have hdt : (deriveFields P ms t).depth = fin ((ms.mDepth : K) / 100) := by
    simp [deriveFields, Dbl.fin_div_fin_of_ne _ h100]
  have hot : (deriveFields P ms t).freqofs = fin ((ms.mFreqOfs : K) / 100) := by
    simp [deriveFields, Dbl.fin_div_fin_of_ne _ h100]
  have h1 := processSample_guarded P hP ms hres (deriveFields P ms t) _ _ _ _ hlt hpt hdt hot
    hd0 hd1 ho1 x hstart
  have h2 := processLoop_guarded P hP ms hres _ _ _ _ hd0 hd1 ho1 xs
    (processSample P ms (deriveFields P ms t) x).1 (by simpa using hlt) (by simpa using hpt)
    (by simpa using hdt) (by simpa using hot) h1
  simpa [InstanceProcess, processLoop_cons] using h2

/-- C13 as amended, division guard: on a platform whose math functions have
the properties of the real ones, for every parameter record with depth and
frequency offset in `[0, 100]` percent and resonance > 0, and every state
whose `samplerate` is finite and not zero, each recompute in `InstanceProcess`
has `frequency` in `[0, 1]`, `omega = pi*exp((frequency-1)*6)` in `[0, pi]`,
and `a0 = 1 + sin(omega)/(2*resonance)`, which is at least 1.  Hence after
every non-empty block, from a fresh state or from a state whose coefficients
were already finite with `a0` at least 1, the `a0` the filter step divided by
is finite and at least 1, so not zero. -/
theorem division_guard (P : Platform K) (hP : P.Sound) (ms : EffectWahwahSettings K)
    (hres : 0 < ms.mRes) (hdepth : 0 ≤ ms.mDepth ∧ ms.mDepth ≤ 100)
    (hofs : 0 ≤ ms.mFreqOfs ∧ ms.mFreqOfs ≤ 100) (sr : K) (hsr : sr ≠ 0)
    (s : EffectWahwahState K) (hs : s.samplerate = fin sr)
    (hstart : s.skipcount = 0 ∨ Guarded s) (n : Nat) (data : EffectWahwahState K)
    (x : Dbl K) (xs : List (Dbl K)) :
    0 ≤ sweepFrequency P ms sr n ∧ sweepFrequency P ms sr n ≤ 1 ∧
    0 ≤ sweepOmega P ms sr n ∧ sweepOmega P ms sr n ≤ P.M_PI ∧
    (recompute P ms { deriveFields P ms s with skipcount := n }).a0 =
      fin (1 + P.sin (sweepOmega P ms sr n) / (2 * ms.mRes)) ∧
    1 ≤ 1 + P.sin (sweepOmega P ms sr n) / (2 * ms.mRes) ∧
    Guarded (InstanceProcess P ms s (x :: xs)).1 ∧
    Guarded (InstanceProcess P ms (InstanceInit P ms data sr) (x :: xs)).1 := by
  have h100 : (100 : K) ≠ 0 := by norm_num
  have h180 : (180 : K) ≠ 0 := by norm_num
  have hd0 : (0 : K) ≤ (ms.mDepth : K) / 100 := by
    have : (0 : K) ≤ (ms.mDepth : K) := by exact_mod_cast hdepth.1
    positivity
  have hd1 : (ms.mDepth : K) / 100 ≤ 1 := by
    have : (ms.mDepth : K) ≤ 100 := by exact_mod_cast hdepth.2
    rw [div_le_iff₀ (by norm_num : (0 : K) < 100)]
    linarith
  have ho0 : (0 : K) ≤ (ms.mFreqOfs : K) / 100 := by
    have : (0 : K) ≤ (ms.mFreqOfs : K) := by exact_mod_cast hofs.1
    positivity
  have ho1 : (ms.mFreqOfs : K) / 100 ≤ 1 := by
    have : (ms.mFreqOfs : K) ≤ 100 := by exact_mod_cast hofs.2
    rw [div_le_iff₀ (by norm_num : (0 : K) < 100)]
    linarith
  have hc0 : 0 ≤ (1 + P.cos ((n : K) * (ms.mFreq * 2 * P.M_PI / sr) +
      ms.mPhase * P.M_PI / 180)) / 2 := by
    have := hP.neg_one_le_cos ((n : K) * (ms.mFreq * 2 * P.M_PI / sr) + ms.mPhase * P.M_PI / 180)
    apply div_nonneg <;> linarith
  have hc1 : (1 + P.cos ((n : K) * (ms.mFreq * 2 * P.M_PI / sr) +
      ms.mPhase * P.M_PI / 180)) / 2 ≤ 1 := by
    have := hP.cos_le_one ((n : K) * (ms.mFreq * 2 * P.M_PI / sr) + ms.mPhase * P.M_PI / 180)
    rw [div_le_iff₀ (by norm_num : (0 : K) < 2)]
    linarith
  have hf0 : 0 ≤ sweepFrequency P ms sr n := by
    unfold sweepFrequency
    have h1 : (0 : K) ≤ 1 - (ms.mFreqOfs : K) / 100 := by linarith
    have := mul_nonneg (mul_nonneg hc0 hd0) h1
    linarith
  have hf1 : sweepFrequency P ms sr n ≤ 1 := by
    unfold sweepFrequency
    have h1 : (1 + P.cos ((n : K) * (ms.mFreq * 2 * P.M_PI / sr) +
        ms.mPhase * P.M_PI / 180)) / 2 * ((ms.mDepth : K) / 100) ≤ 1 := by nlinarith
    nlinarith
  have he0 : 0 ≤ P.exp ((sweepFrequency P ms sr n - 1) * 6) := hP.exp_nonneg _
  have he1 : P.exp ((sweepFrequency P ms sr n - 1) * 6) ≤ 1 :=
    hP.exp_le_one _ (by linarith)
  have hw0 : 0 ≤ sweepOmega P ms sr n := mul_nonneg hP.pi_nonneg he0
  have hw1 : sweepOmega P ms sr n ≤ P.M_PI := by
    unfold sweepOmega
    have := hP.pi_nonneg
    nlinarith
  have hsin : 0 ≤ P.sin (sweepOmega P ms sr n) := hP.sin_nonneg _ hw0 hw1
  have hl : (deriveFields P ms s).lfoskip = fin (ms.mFreq * 2 * P.M_PI / sr) := by
    simp [deriveFields, hs, Dbl.fin_div_fin_of_ne _ hsr]
  have hp : (deriveFields P ms s).phase = fin (ms.mPhase * P.M_PI / 180) := by
    simp [deriveFields, Dbl.fin_div_fin_of_ne _ h180]
  have hd : (deriveFields P ms s).depth = fin ((ms.mDepth : K) / 100) := by
    simp [deriveFields, Dbl.fin_div_fin_of_ne _ h100]
  have ho : (deriveFields P ms s).freqofs = fin ((ms.mFreqOfs : K) / 100) := by
    simp [deriveFields, Dbl.fin_div_fin_of_ne _ h100]
  refine ⟨hf0, hf1, hw0, hw1, ?_, ?_,
    InstanceProcess_guarded P hP ms hres hdepth hofs sr hsr s hs hstart x xs,
    InstanceProcess_guarded P hP ms hres hdepth hofs sr hsr _ rfl (Or.inl rfl) x xs⟩
  · have h := recompute_a0 P ms { deriveFields P ms s with skipcount := n } _ _ _ _
      hl hp hd ho hres.ne'
    simpa [sweepOmega, sweepFrequency] using h
  · have : 0 ≤ P.sin (sweepOmega P ms sr n) / (2 * ms.mRes) := div_nonneg hsin (by positivity)
    linarith

/-- Witness of the amended C13: the real math functions, the sample parameter
record, a fresh state at 44100 Hz, the recompute of the first sample and a
block of one sample. -/
theorem division_guard_witness :
    (Platform.Sound (⟨Real.pi, Real.cos, Real.sin, Real.exp, fun x => 10 ^ (x / 20)⟩ : Platform ℝ) ∧
      0 < (sampleSettings : EffectWahwahSettings ℝ).mRes ∧
      (0 ≤ (sampleSettings : EffectWahwahSettings ℝ).mDepth ∧
        (sampleSettings : EffectWahwahSettings ℝ).mDepth ≤ 100) ∧
      (0 ≤ (sampleSettings : EffectWahwahSettings ℝ).mFreqOfs ∧
        (sampleSettings : EffectWahwahSettings ℝ).mFreqOfs ≤ 100) ∧
      (44100 : ℝ) ≠ 0 ∧
      (InstanceInit (⟨Real.pi, Real.cos, Real.sin, Real.exp, fun x => 10 ^ (x / 20)⟩ : Platform ℝ) sampleSettings zeroState 44100).samplerate = fin 44100 ∧
      ((InstanceInit (⟨Real.pi, Real.cos, Real.sin, Real.exp, fun x => 10 ^ (x / 20)⟩ : Platform ℝ) sampleSettings zeroState 44100).skipcount = 0 ∨
        Guarded (InstanceInit (⟨Real.pi, Real.cos, Real.sin, Real.exp, fun x => 10 ^ (x / 20)⟩ : Platform ℝ) sampleSettings zeroState 44100))) ∧
    (0 ≤ sweepFrequency (⟨Real.pi, Real.cos, Real.sin, Real.exp, fun x => 10 ^ (x / 20)⟩ : Platform ℝ) sampleSettings 44100 1 ∧
      sweepFrequency (⟨Real.pi, Real.cos, Real.sin, Real.exp, fun x => 10 ^ (x / 20)⟩ : Platform ℝ) sampleSettings 44100 1 ≤ 1 ∧
      0 ≤ sweepOmega (⟨Real.pi, Real.cos, Real.sin, Real.exp, fun x => 10 ^ (x / 20)⟩ : Platform ℝ) sampleSettings 44100 1 ∧
      sweepOmega (⟨Real.pi, Real.cos, Real.sin, Real.exp, fun x => 10 ^ (x / 20)⟩ : Platform ℝ) sampleSettings 44100 1 ≤ Real.pi ∧
      (recompute (⟨Real.pi, Real.cos, Real.sin, Real.exp, fun x => 10 ^ (x / 20)⟩ : Platform ℝ) sampleSettings
        { deriveFields (⟨Real.pi, Real.cos, Real.sin, Real.exp, fun x => 10 ^ (x / 20)⟩ : Platform ℝ) sampleSettings (InstanceInit (⟨Real.pi, Real.cos, Real.sin, Real.exp, fun x => 10 ^ (x / 20)⟩ : Platform ℝ) sampleSettings zeroState 44100) with
          skipcount := 1 }).a0 =
        fin (1 + Real.sin (sweepOmega (⟨Real.pi, Real.cos, Real.sin, Real.exp, fun x => 10 ^ (x / 20)⟩ : Platform ℝ) sampleSettings 44100 1) /
          (2 * (sampleSettings : EffectWahwahSettings ℝ).mRes)) ∧
      1 ≤ 1 + Real.sin (sweepOmega (⟨Real.pi, Real.cos, Real.sin, Real.exp, fun x => 10 ^ (x / 20)⟩ : Platform ℝ) sampleSettings 44100 1) /
          (2 * (sampleSettings : EffectWahwahSettings ℝ).mRes) ∧
      Guarded (InstanceProcess (⟨Real.pi, Real.cos, Real.sin, Real.exp, fun x => 10 ^ (x / 20)⟩ : Platform ℝ) sampleSettings
        (InstanceInit (⟨Real.pi, Real.cos, Real.sin, Real.exp, fun x => 10 ^ (x / 20)⟩ : Platform ℝ) sampleSettings zeroState 44100) [fin 1]).1 ∧
      Guarded (InstanceProcess (⟨Real.pi, Real.cos, Real.sin, Real.exp, fun x => 10 ^ (x / 20)⟩ : Platform ℝ) sampleSettings
        (InstanceInit (⟨Real.pi, Real.cos, Real.sin, Real.exp, fun x => 10 ^ (x / 20)⟩ : Platform ℝ) sampleSettings zeroState 44100) [fin 1]).1) :=
  ⟨⟨real_platform_sound _, by norm_num [sampleSettings], by simp [sampleSettings],
      by simp [sampleSettings], by norm_num, rfl, Or.inl rfl⟩,
    division_guard (⟨Real.pi, Real.cos, Real.sin, Real.exp, fun x => 10 ^ (x / 20)⟩ : Platform ℝ) (real_platform_sound _) sampleSettings
      (by norm_num [sampleSettings]) (by simp [sampleSettings]) (by simp [sampleSettings])
      44100 (by norm_num) (InstanceInit (⟨Real.pi, Real.cos, Real.sin, Real.exp, fun x => 10 ^ (x / 20)⟩ : Platform ℝ) sampleSettings zeroState 44100) rfl (Or.inl rfl) 1
      zeroState (fin 1) []⟩

/-- C13, counterexample: with the real math functions, depth 0, offset 0 (both
in range) and the non-zero resonance `-sin(pi*exp(-6))/2`, the recompute of
the first sample at 44100 Hz gives `a0 = 0`; the filter step then divides by
zero and stores a non-finite `yn1`.  With the sample parameter record on a
state whose sample rate is 0, the recompute gives a non-finite `a0`. -/
theorem division_by_zero_for_negative_resonance :
    (⟨3 / 2, 0, 0, -(Real.sin (Real.pi * Real.exp (-6))) / 2, 0, -6⟩ : EffectWahwahSettings ℝ).mRes ≠ 0 ∧
    (0 ≤ (⟨3 / 2, 0, 0, -(Real.sin (Real.pi * Real.exp (-6))) / 2, 0, -6⟩ : EffectWahwahSettings ℝ).mDepth ∧ (⟨3 / 2, 0, 0, -(Real.sin (Real.pi * Real.exp (-6))) / 2, 0, -6⟩ : EffectWahwahSettings ℝ).mDepth ≤ 100) ∧ (0 ≤ (⟨3 / 2, 0, 0, -(Real.sin (Real.pi * Real.exp (-6))) / 2, 0, -6⟩ : EffectWahwahSettings ℝ).mFreqOfs ∧ (⟨3 / 2, 0, 0, -(Real.sin (Real.pi * Real.exp (-6))) / 2, 0, -6⟩ : EffectWahwahSettings ℝ).mFreqOfs ≤ 100) ∧
    (recompute (⟨Real.pi, Real.cos, Real.sin, Real.exp, fun x => 10 ^ (x / 20)⟩ : Platform ℝ) (⟨3 / 2, 0, 0, -(Real.sin (Real.pi * Real.exp (-6))) / 2, 0, -6⟩ : EffectWahwahSettings ℝ)
      { deriveFields (⟨Real.pi, Real.cos, Real.sin, Real.exp, fun x => 10 ^ (x / 20)⟩ : Platform ℝ) (⟨3 / 2, 0, 0, -(Real.sin (Real.pi * Real.exp (-6))) / 2, 0, -6⟩ : EffectWahwahSettings ℝ) (InstanceInit (⟨Real.pi, Real.cos, Real.sin, Real.exp, fun x => 10 ^ (x / 20)⟩ : Platform ℝ) (⟨3 / 2, 0, 0, -(Real.sin (Real.pi * Real.exp (-6))) / 2, 0, -6⟩ : EffectWahwahSettings ℝ) zeroState 44100) with skipcount := 1 }).a0 =
        fin 0 ∧
    (InstanceProcess (⟨Real.pi, Real.cos, Real.sin, Real.exp, fun x => 10 ^ (x / 20)⟩ : Platform ℝ) (⟨3 / 2, 0, 0, -(Real.sin (Real.pi * Real.exp (-6))) / 2, 0, -6⟩ : EffectWahwahSettings ℝ) (InstanceInit (⟨Real.pi, Real.cos, Real.sin, Real.exp, fun x => 10 ^ (x / 20)⟩ : Platform ℝ) (⟨3 / 2, 0, 0, -(Real.sin (Real.pi * Real.exp (-6))) / 2, 0, -6⟩ : EffectWahwahSettings ℝ) zeroState 44100) [fin 1]).1.a0 = fin 0 ∧
    (InstanceProcess (⟨Real.pi, Real.cos, Real.sin, Real.exp, fun x => 10 ^ (x / 20)⟩ : Platform ℝ) (⟨3 / 2, 0, 0, -(Real.sin (Real.pi * Real.exp (-6))) / 2, 0, -6⟩ : EffectWahwahSettings ℝ) (InstanceInit (⟨Real.pi, Real.cos, Real.sin, Real.exp, fun x => 10 ^ (x / 20)⟩ : Platform ℝ) (⟨3 / 2, 0, 0, -(Real.sin (Real.pi * Real.exp (-6))) / 2, 0, -6⟩ : EffectWahwahSettings ℝ) zeroState 44100) [fin 1]).1.yn1 = nan ∧
    (recompute (⟨Real.pi, Real.cos, Real.sin, Real.exp, fun x => 10 ^ (x / 20)⟩ : Platform ℝ) sampleSettings
      { deriveFields (⟨Real.pi, Real.cos, Real.sin, Real.exp, fun x => 10 ^ (x / 20)⟩ : Platform ℝ) sampleSettings (InstanceInit (⟨Real.pi, Real.cos, Real.sin, Real.exp, fun x => 10 ^ (x / 20)⟩ : Platform ℝ) sampleSettings zeroState 0) with
        skipcount := 1 }).a0 = nan := by
  have hlt : Real.exp (-6) < 1 := by
    have h := Real.exp_lt_exp.mpr (show (-6 : ℝ) < 0 by norm_num)
    rw [Real.exp_zero] at h
    exact h
  have hs : 0 < Real.sin (Real.pi * Real.exp (-6)) := by
    apply Real.sin_pos_of_pos_of_lt_pi
    · positivity
    · have := Real.pi_pos
      nlinarith
  have hne : -(Real.sin (Real.pi * Real.exp (-6))) / 2 ≠ 0 := by
    intro h
    linarith
  have h2 : 2 * (-(Real.sin (Real.pi * Real.exp (-6))) / 2) ≠ 0 := by
    intro h
    linarith
  have ha : 1 + Real.sin (Real.pi * Real.exp (-6)) /
      (2 * (-(Real.sin (Real.pi * Real.exp (-6))) / 2)) = 0 := by
    field_simp
    ring
  refine ⟨hne, ⟨le_refl _, by norm_num⟩, ⟨le_refl _, by norm_num⟩, ?_, ?_, ?_, ?_⟩
  · simp [InstanceInit, deriveFields, recompute, Dbl.fin_div_fin, h2, ha]
  · simp [InstanceProcess, InstanceInit, deriveFields, processLoop, processSample, recompute,
      lfoskipsamples, Dbl.fin_div_fin, h2, ha]
  · simp [InstanceProcess, InstanceInit, deriveFields, processLoop, processSample, recompute,
      lfoskipsamples, Dbl.fin_div_fin, h2, ha]
  · simp [InstanceInit, deriveFields, recompute, Dbl.fin_div_fin, sampleSettings]

/-- C12, counterexample: with the real math functions and the sample parameter
record, the first sample of a fresh state at 44100 Hz leaves `skipcount = 1`,
which is not a multiple of 30, and yet recomputes the coefficients: `a0` was 0
after `InstanceInit` and is not 0 after the sample.  With `skipcount = 29`
before the sample the incremented value is 30, and the coefficients are
reused. -/
theorem recompute_on_first_sample :
    (InstanceInit (⟨Real.pi, Real.cos, Real.sin, Real.exp, fun x => 10 ^ (x / 20)⟩ : Platform ℝ) sampleSettings zeroState 44100).a0 = fin 0 ∧
    (InstanceProcess (⟨Real.pi, Real.cos, Real.sin, Real.exp, fun x => 10 ^ (x / 20)⟩ : Platform ℝ) sampleSettings (InstanceInit (⟨Real.pi, Real.cos, Real.sin, Real.exp, fun x => 10 ^ (x / 20)⟩ : Platform ℝ) sampleSettings zeroState 44100)
      [fin 1]).1.skipcount = 1 ∧
    1 % lfoskipsamples ≠ 0 ∧
    (InstanceProcess (⟨Real.pi, Real.cos, Real.sin, Real.exp, fun x => 10 ^ (x / 20)⟩ : Platform ℝ) sampleSettings (InstanceInit (⟨Real.pi, Real.cos, Real.sin, Real.exp, fun x => 10 ^ (x / 20)⟩ : Platform ℝ) sampleSettings zeroState 44100)
      [fin 1]).1.a0 ≠ fin 0 ∧
    (processSample (⟨Real.pi, Real.cos, Real.sin, Real.exp, fun x => 10 ^ (x / 20)⟩ : Platform ℝ) sampleSettings
      { InstanceInit (⟨Real.pi, Real.cos, Real.sin, Real.exp, fun x => 10 ^ (x / 20)⟩ : Platform ℝ) sampleSettings zeroState 44100 with skipcount := 29 }
      (fin 1)).1.skipcount % lfoskipsamples = 0 ∧
    coefficients (processSample (⟨Real.pi, Real.cos, Real.sin, Real.exp, fun x => 10 ^ (x / 20)⟩ : Platform ℝ) sampleSettings
      { InstanceInit (⟨Real.pi, Real.cos, Real.sin, Real.exp, fun x => 10 ^ (x / 20)⟩ : Platform ℝ) sampleSettings zeroState 44100 with skipcount := 29 } (fin 1)).1 =
      coefficients (InstanceInit (⟨Real.pi, Real.cos, Real.sin, Real.exp, fun x => 10 ^ (x / 20)⟩ : Platform ℝ) sampleSettings zeroState 44100) := by
  have hg := InstanceProcess_guarded (⟨Real.pi, Real.cos, Real.sin, Real.exp, fun x => 10 ^ (x / 20)⟩ : Platform ℝ) (real_platform_sound _) sampleSettings
    (by norm_num [sampleSettings]) (by simp [sampleSettings]) (by simp [sampleSettings])
    44100 (by norm_num) (InstanceInit (⟨Real.pi, Real.cos, Real.sin, Real.exp, fun x => 10 ^ (x / 20)⟩ : Platform ℝ) sampleSettings zeroState 44100) rfl (Or.inl rfl)
    (fin 1) []
  obtain ⟨b0, b1, b2, a0, a1, a2, hc, ha⟩ := hg
  simp only [coefficients, Prod.mk.injEq] at hc
  refine ⟨rfl, rfl, by decide, ?_, rfl, ?_⟩
  · rw [hc.2.2.2.1]
    intro h
    injection h with h'
    rw [h'] at ha
    linarith
  · exact processSample_coefficients_of_not_multiple _ _ _ _ (by decide)

end Guard

end Wahwah
